import Mathlib

/-!
# Verification of the AgentSurfer autonomous web-agent workflow

Shallow embedding of the core decision/execution loop of the repository:
the workflow state machine (nodes threading a shared mutable `context`),
the selector-resolution engine, the action-tool argument validation layer,
and the batch orchestrator's extraction stage.

Sources embedded here (file names refer to the repository):
 * `nodes/cleanLLMJsonOutput.js` (bundled in `nodes/endNode.js`) - JSON recovery decoder
 * `nodes/extractQueryFromTask.js` (bundled in `unnamed/part_001`)
 * `validateActionArgs` (bundled in `unnamed/part_001`)
 * `nodes/extractInfoNode.js` - the general-purpose extraction node with the
   step-count ceiling
 * `nodes/analyzePageNode.js`, `takeActionNode` / `errorHandlingNode` /
   `checkCompletionNode` / `endNode` (identical copies in `nodes/nodes.js`,
   `test.js`, `unnamed/part_003`, `unnamed/part_004`, `unnamed/part_002`)
 * `nodes/extractWithSelectorNode.js` (bundled in `nodes/extractIndexFromTask.js`)
 * `tools.js` - the zod argument schemas of the four browser tools
 * `nodes/multiAgentOrchestrator.js` - `extractBreakthroughFromPage`
 * the workflow controller loop of `nodes/nodes.js` (the same loop appears in
   `test.js` and `unnamed/part_006`): it sets `context.lastNode = currentNode`
   *before* dispatching each node, merges the node's result into the context
   and re-dispatches on `context.nextNode` until `context.done` is true.

External collaborators (Puppeteer page, language-model client, the live
behaviour of the four tools) are modelled as an oracle environment `Env`:
each oracle returns what the corresponding `await` call would have produced,
with `Except String` for calls that can reject.  Machine strings are Lean
`String`s (JS `slice`/index arithmetic is over characters rather than UTF-16
units, which is equivalent for the ASCII data handled here).
-/

set_option maxHeartbeats 1600000

namespace AgentSurfer

/-! ## A minimal model of JavaScript values

Tool arguments, parsed JSON payloads and the `nextArgs` field of the context
are arbitrary JS values.  `jundef` stands for `undefined` (the value read from
a missing object property). -/

inductive JVal where
  | jstr (s : String)
  | jnum (n : Int)
  | jbool (b : Bool)
  | jnull
  | jundef
  | jobj (fields : List (String × JVal))
  | jarr (elems : List JVal)
  deriving Repr, Inhabited

namespace JVal

/-- Property read `v.k` on a JS value: `none` models `undefined`
(also the result of reading a property of a non-object primitive). -/
def lookup : JVal → String → Option JVal
  | .jobj fields, k => fields.lookup k
  | _, _ => none

/-- Property read where the value itself may be `undefined`
(JS `args.k` with `args` possibly missing). -/
def lookupOpt : Option JVal → String → Option JVal
  | some v, k => v.lookup k
  | none, _ => none

/-- JS truthiness of a value (`undefined`, `null`, `false`, `0`, `""` are falsy). -/
def truthy : JVal → Bool
  | .jstr s => s ≠ ""
  | .jnum n => n ≠ 0
  | .jbool b => b
  | .jnull => false
  | .jundef => false
  | .jobj _ => true
  | .jarr _ => true

/-- The keys of an object value (empty for non-objects). -/
def keys : JVal → List String
  | .jobj fields => fields.map Prod.fst
  | _ => []

end JVal

/-- Two JS objects hold the same data: every property reads equal on both.
JS object identity is irrelevant to the code under study; what matters is
the key/value content. -/
def objEquiv (a b : JVal) : Prop := ∀ k, a.lookup k = b.lookup k

/-! ## JS string helpers -/

/-- Substring scan over character lists (structural, so that concrete
instances evaluate in the kernel). -/
def listIncludes : List Char → List Char → Bool
  | [], pat => pat.isEmpty
  | c :: rest, pat => pat.isPrefixOf (c :: rest) || listIncludes rest pat

/-- JS `haystack.includes(needle)` (substring test). -/
def jsIncludes (haystack needle : String) : Bool :=
  listIncludes haystack.toList needle.toList

/-- Character-list lowercase conversion. -/
def strToLower (s : String) : String := String.mk (s.toList.map Char.toLower)

/-- Case-insensitive substring test (the effect of a `/literal/i` regex test
for a literal pattern, ASCII case folding). -/
def containsCI (haystack needle : String) : Bool :=
  jsIncludes (strToLower haystack) (strToLower needle)

/-- JS `s.trim()` over character lists. -/
def jsTrim (s : String) : String :=
  String.mk (((s.toList.dropWhile Char.isWhitespace).reverse.dropWhile
    Char.isWhitespace).reverse)

/-- JS `s.slice(0, n)` over character lists. -/
def jsSlice (s : String) (n : Nat) : String := String.mk (s.toList.take n)

/-- JS `s.startsWith(pre)` over character lists. -/
def jsStartsWith (s pre : String) : Bool := pre.toList.isPrefixOf s.toList

/-- JS `s.endsWith(post)` over character lists. -/
def jsEndsWith (s post : String) : Bool := post.toList.isSuffixOf s.toList

/-- JS `String(x)` for a possibly-undefined string value
(`'Error: ' + context.error` stringifies `undefined`). -/
def jsShowOptStr : Option String → String
  | some s => s
  | none => "undefined"

/-- JS truthiness of a possibly-undefined string. -/
def jsTruthyOptStr : Option String → Bool
  | some s => s ≠ ""
  | none => false

/-! ## `cleanLLMJsonOutput` (nodes/endNode.js bundle, lines 18-35)

```js
export function cleanLLMJsonOutput(output) {
  let cleaned = output.trim();
  if (cleaned.startsWith('OPENFENCE')) {
    cleaned = cleaned.replace(/^FENCE[a-zA-Z]*\n?|FENCE$/g, '').trim();
  }
  const firstBrace = Math.min(
    ...['LB', 'LSQB'].map(c => cleaned.indexOf(c)).filter(i => i !== -1));
  const lastBrace = Math.max(
    ...['RB', 'RSQB'].map(c => cleaned.lastIndexOf(c)));
  if (firstBrace !== -1 && lastBrace !== -1 && lastBrace > firstBrace) {
    cleaned = cleaned.slice(firstBrace, lastBrace + 1);
  }
  return cleaned;
}
```
(fence = three backticks; LB/RB = curly braces, LSQB/RSQB = square brackets).
-/

/-- The code fence marker (three backtick characters). -/
def fenceStr : String := "```"

/-- JS `s.indexOf(c)` for a single character, as an `Option` position
(`none` models `-1`). -/
def jsIndexOfChar (s : List Char) (c : Char) : Option Nat :=
  s.findIdx? (· == c)

/-- JS `s.lastIndexOf(c)` for a single character (`none` models `-1`). -/
def jsLastIndexOfChar (s : List Char) (c : Char) : Option Nat :=
  match jsIndexOfChar s.reverse c with
  | some i => some (s.length - 1 - i)
  | none => none

/-- The leading-fence alternative of the regex
`/^FENCE[a-zA-Z]*\n?|FENCE$/g`: after the three backticks, drop an ASCII-letter
language tag and one optional newline. -/
def stripLeadingFence (s : String) : String :=
  if jsStartsWith s fenceStr then
    let rest := (s.toList.drop 3).dropWhile (fun c =>
      (c ≥ 'a' ∧ c ≤ 'z') ∨ (c ≥ 'A' ∧ c ≤ 'Z'))
    match rest with
    | '\n' :: tail => String.mk tail
    | _ => String.mk rest
  else s

/-- The trailing-fence alternative: remove a final three-backtick run
(the `g`-flagged regex removes it when it does not overlap the leading match,
which the sequential composition below reproduces). -/
def stripTrailingFence (s : String) : String :=
  if jsEndsWith s fenceStr then String.mk (s.toList.dropLast.dropLast.dropLast) else s

/-- Fence stripping plus trimming, exactly as the source performs it before
the bracket search: trim, then (only when the text starts with a fence)
regex-remove the fence markers and trim again. -/
def fenceStripped (output : String) : String :=
  let cleaned := jsTrim output
  if jsStartsWith cleaned fenceStr then
    jsTrim (stripTrailingFence (stripLeadingFence cleaned))
  else cleaned

/-- `Math.min(...[...].map(indexOf).filter(≠ -1))` — the smaller of two
optional positions; `none` models the empty spread (`Math.min()` =
`Infinity`, which still passes the `!== -1` guard but can never be below
`lastBrace`, so the slice is skipped — hence `none` is faithful). -/
def optMin : Option Nat → Option Nat → Option Nat
  | some i, some j => some (min i j)
  | some i, none => some i
  | none, some j => some j
  | none, none => none

/-- The dual combination for `Math.max` over last positions. -/
def optMax : Option Nat → Option Nat → Option Nat
  | some i, some j => some (max i j)
  | some i, none => some i
  | none, some j => some j
  | none, none => none

/-- The position of the first opening bracket, per the source's
`Math.min` over the two `indexOf` results. -/
def firstBracePos (cs : List Char) : Option Nat :=
  optMin (jsIndexOfChar cs '{') (jsIndexOfChar cs '[')

/-- `Math.max(...['RB','RSQB'].map(lastIndexOf))` — the larger of the last
positions of the two closing brackets (`none` models `-1`). -/
def lastBracePos (cs : List Char) : Option Nat :=
  optMax (jsLastIndexOfChar cs '}') (jsLastIndexOfChar cs ']')

/-- `cleanLLMJsonOutput`, translated from the source. -/
def cleanLLMJsonOutput (output : String) : String :=
  let cleaned := fenceStripped output
  let cs := cleaned.toList
  match firstBracePos cs, lastBracePos cs with
  | some first, some last =>
      if last > first then String.mk ((cs.drop first).take (last + 1 - first))
      else cleaned
  | _, _ => cleaned

/-! ## `extractQueryFromTask` (unnamed/part_001, lines 1-4)

```js
export function extractQueryFromTask(task) {
  const match = task.match(/search for [QUOTE](.+?)[QUOTE]/i)
             || task.match(/search for ([^,]+)/i);
  return match ? match[1] : 'AI agents';
}
```
(QUOTE = a character class of the single and double quote.)  The two regexes
are embedded as leftmost-match scanners over character lists. -/

/-- ASCII case-insensitive character comparison (the `i` regex flag). -/
def ciEq (a b : Char) : Bool := a.toLower = b.toLower

/-- Does `cs` start with `pat`, comparing case-insensitively? -/
def ciStartsWith (cs : List Char) (pat : List Char) : Bool :=
  match pat, cs with
  | [], _ => true
  | _ :: _, [] => false
  | p :: ps, c :: rest => ciEq c p && ciStartsWith rest ps

/-- Membership of a character in the regex quote class. -/
def isQuoteChar (c : Char) : Bool := c = '\'' ∨ c = '\"'

/-- Can the regex `.` match this character?  (JS dot without the `s` flag
excludes the four line terminators.) -/
def dotChar (c : Char) : Bool :=
  ¬ (c = '\n' ∨ c = '\r' ∨ c.toNat = 0x2028 ∨ c.toNat = 0x2029)

/-- The literal part of both search regexes. -/
def searchForPat : List Char := "search for ".toList

/-- Attempt the quoted regex `search for [QUOTE](.+?)[QUOTE]` at one position:
after the literal and an opening quote, the lazy group takes the shortest
non-empty run of dot-characters ending right before a quote character. -/
def quotedMatchHere (cs : List Char) : Option String :=
  if ciStartsWith cs searchForPat then
    match cs.drop searchForPat.length with
    | q :: b0 :: btail =>
        if isQuoteChar q then
          match btail.findIdx? isQuoteChar with
          | some k =>
              let group := b0 :: btail.take k
              if group.all dotChar then some (String.mk group) else none
          | none => none
        else none
    | _ => none
  else none

/-- Attempt the unquoted regex `search for ([^,]+)` at one position:
the greedy group takes the longest non-empty run of non-comma characters. -/
def unquotedMatchHere (cs : List Char) : Option String :=
  if ciStartsWith cs searchForPat then
    match cs.drop searchForPat.length with
    | c :: _ =>
        if c ≠ ',' then
          some (String.mk ((cs.drop searchForPat.length).takeWhile (· ≠ ',')))
        else none
    | [] => none
  else none

/-- Leftmost-match regex scan: try `attempt` at every position left to right. -/
def regexScan (attempt : List Char → Option String) : List Char → Option String
  | [] => attempt []
  | c :: rest =>
      match attempt (c :: rest) with
      | some r => some r
      | none => regexScan attempt rest

/-- `extractQueryFromTask`, translated from the source: the quoted regex wins,
then the unquoted one, then the hard-coded fallback. -/
def extractQueryFromTask (task : String) : String :=
  match regexScan quotedMatchHere task.toList with
  | some q => q
  | none =>
      match regexScan unquotedMatchHere task.toList with
      | some q => q
      | none => "AI agents"

/-- Does the character list contain the literal search-for pattern at any
position (the claim's "containing no search-for pattern"), comparing
case-insensitively as the regexes do? -/
def hasSearchFor : List Char → Bool
  | [] => false
  | c :: rest => ciStartsWith (c :: rest) searchForPat || hasSearchFor rest

/-! ## `validateActionArgs` (unnamed/part_001, lines 6-27) -/

/-- Is a possibly-undefined property a string with non-blank content?
(`typeof x === 'string' && x.trim()`). -/
def isNonBlankStr : Option JVal → Bool
  | some (.jstr s) => jsTrim s ≠ ""
  | _ => false

/-- `validateActionArgs(action, args)`, translated from the source.
`args` is `Option JVal` so that the JS `!args` guard (for `undefined`/`null`)
is representable: `none` and `some .jnull`/`some .jundef` are falsy. -/
def validateActionArgs (action : String) (args : Option JVal) : Bool :=
  let argsTruthy : Bool := match args with
    | none => false
    | some v => v.truthy
  let selectorOk := argsTruthy && isNonBlankStr (JVal.lookupOpt args "selector")
  let needsSelector := action == "type" || action == "click" || action == "extract"
  if needsSelector && !selectorOk then false
  else if action == "type" && !(argsTruthy && isNonBlankStr (JVal.lookupOpt args "text")) then false
  else if action == "navigate" && !(argsTruthy && isNonBlankStr (JVal.lookupOpt args "url")) then false
  else true

/-! ## The zod schemas of the four tools (tools.js)

Each tool's `schema` is `z.object` over required `z.string()` keys; zod's
default object mode strips unrecognised keys, so a successful parse returns
an object holding exactly the schema keys. -/

/-- Schema keys of each tool, by action name (tools.js lines 10-12, 29-31,
67-70, 89-91; the mapping action-to-tool is the `toolNameMap` of
extractInfoNode.js). -/
def schemaKeys (action : String) : List String :=
  if action = "navigate" then ["url"]
  else if action = "type" then ["selector", "text"]
  else if action = "click" then ["selector"]
  else if action = "extract" then ["selector"]
  else []

/-- `z.object({k1: z.string(), ...}).parse(v)`: succeeds iff `v` is an object
whose every schema key is present with a string value; the result keeps
exactly the schema keys (zod strip mode).  `none` models a thrown `ZodError`. -/
def zodParseStrings (ks : List String) (v : JVal) : Option JVal :=
  match v with
  | .jobj _ =>
      if ks.all (fun k => match v.lookup k with
          | some (.jstr _) => true
          | _ => false) then
        some (.jobj (ks.map (fun k => (k, (v.lookup k).getD .jundef))))
      else none
  | _ => none


/-! ## The shared context and the oracle environment

`Ctx` is the central mutable context object threaded through the workflow
(`nodes.js`), restricted to the fields the embedded nodes read or write.
Counters that JS reads through `(x || 0)` are plain `Nat`s (an absent field
and `0` are indistinguishable to the code).  `Env` packages the external
collaborators: each field is the value/outcome the corresponding `await`
would produce (`Except` for calls that can reject). -/

/-- One entry of `context.steps` (the execution audit trail). -/
structure Step where
  tool : Option String := none
  action : String := ""
  args : Option JVal := none
  result : Option JVal := none
  deriving Repr

/-- One candidate of `context.candidateSelectors`. -/
structure Cand where
  selector : String
  index : Nat
  deriving Repr

/-- One raw search result produced by the DOM scrape in the forced-parse
branch of `extractInfoNode` (fields may be `undefined`). -/
structure DuckResult where
  title : Option String := none
  url : Option String := none
  snippet : Option String := none
  deriving Repr

/-- What visiting a result page yields (`page.title()` and the body
inner text). -/
structure PageVisit where
  title : String := ""
  bodyText : String := ""
  deriving Repr

/-- A parse result of the structured-output parser in `analyzePageNode`. -/
structure PAction where
  action : String
  arguments : JVal
  deriving Repr

/-- The central workflow context (`nodes.js` / the modular node files). -/
structure Ctx where
  task : String := ""
  taskTargetUrl : Option String := none
  plan : Option JVal := none
  refinedQuery : Option JVal := none
  pageContent : Option String := none
  steps : List Step := []
  stepCount : Nat := 0
  retryCount : Nat := 0
  navLoopCount : Nat := 0
  actionsTaken : List (String × Option JVal) := []
  extracted : Option String := none
  error : Option String := none
  finalResult : Option String := none
  nextAction : Option String := none
  nextArgs : Option JVal := none
  outputFormat : Option JVal := none
  outputSchema : Option JVal := none
  lastNode : Option String := none
  nextNode : Option String := none
  done : Bool := false
  toolNames : List String := []
  extractionSelector : String := ""
  extractionIndex : Nat := 0
  candidateSelectors : List Cand := []
  deriving Repr

/-- The oracle environment: outcomes of every external call a node can make.
The environment is held fixed during one node execution (the page and model
are sampled once per call site; claims proved below do not depend on the
page changing under the node's feet). -/
structure Env where
  pageUrl : String := ""
  pageContentStr : String := ""
  llm : String → String := fun _ => ""
  jsonParse : String → Option JVal := fun _ => none
  parserParse : String → Option PAction := fun _ => none
  callTool : String → Option JVal → Except String String := fun _ _ => .error "no tool"
  waitForSelector : String → Nat → Except String Unit := fun _ _ => .error "timeout"
  gotoPage : String → Except String Unit := fun _ => .ok ()
  typeInto : String → String → Except String Unit := fun _ _ => .ok ()
  pressEnterInSearch : Except String Unit := .ok ()
  pressEnterKey : Except String Unit := .ok ()
  queryTexts : String → List String := fun _ => []
  duckResults : List DuckResult := []
  visitPage : String → Except String PageVisit := fun _ => .error "goto failed"

/-- One observable external effect of a node execution: a registry tool
invocation (`tool.call`) or a direct page navigation (`page.goto`). -/
inductive EffectCall where
  | toolCall (name : String) (input : Option JVal)
  | pageGoto (url : String)
  deriving Repr

/-- A node's result: the context update it returns to the controller plus the
trace of external effects it issued, in order. -/
structure NodeOut where
  ctx : Ctx
  calls : List EffectCall := []
  deriving Repr

/-- Shorthand for the ubiquitous `return { ...context, error, nextNode:
'errorHandlingNode' }` with an effect trace. -/
def errTo (ctx : Ctx) (msg : String) (calls : List EffectCall := []) : NodeOut :=
  ⟨{ ctx with error := some msg, nextNode := some "errorHandlingNode" }, calls⟩

/-! ## Heuristic regex scanners of the forced-parse branch
(extractInfoNode.js lines 192-230) -/

/-- ASCII letter test (the `[A-Z]` class under the `i` flag). -/
def isAsciiLetter (c : Char) : Bool :=
  (c ≥ 'a' ∧ c ≤ 'z') ∨ (c ≥ 'A' ∧ c ≤ 'Z')

/-- The `[A-Za-z0-9&.,\- ]` character class of the contributors regex. -/
def contribClassChar (c : Char) : Bool :=
  isAsciiLetter c ∨ (c ≥ '0' ∧ c ≤ '9') ∨ c = '&' ∨ c = '.' ∨ c = ',' ∨ c = '-' ∨ c = ' '

/-- The alternatives of the contributors regex prefix, in the engine's
attempt order (optional `s` tried greedily first). -/
def contribAlts : List String :=
  ["by", "authors:", "author:", "contributors:", "contributor:",
   "organization:", "team:", "research by"]

/-- Attempt the contributors regex at one position: an alternative prefix
(case-insensitively), a whitespace run, then a letter followed by 3 to 100
class characters; the capture group is that letter plus run. -/
def contribMatchHere (cs : List Char) : Option String :=
  (contribAlts.filterMap (fun alt =>
    if ciStartsWith cs alt.toList then
      let rest := cs.drop alt.length
      let rest2 := rest.dropWhile Char.isWhitespace
      match rest2 with
      | c :: tail =>
          if isAsciiLetter c then
            let body := tail.takeWhile contribClassChar
            if body.length ≥ 3 then some (String.mk (c :: body.take 100)) else none
          else none
      | [] => none
    else none)).head?

/-- `pageContent.match(/(?:By|Authors?:|...)\s*([A-Z][A-Za-z0-9&.,\- ]{3,100})/i)`,
returning capture group 1 of the leftmost match. -/
def contributorsMatch (s : String) : Option String :=
  regexScan contribMatchHere s.toList

/-- `pageContent.match(/(20\d{2})/)`: the first `20xx` digit run. -/
def yearMatchHere (cs : List Char) : Option String :=
  match cs with
  | '2' :: '0' :: a :: b :: _ =>
      if a.isDigit ∧ b.isDigit then some (String.mk ['2', '0', a, b]) else none
  | _ => none

/-- The leftmost `(20\d{2})` match of the year regex. -/
def yearMatch (s : String) : Option String :=
  regexScan yearMatchHere s.toList

/-- The alternatives of the impact regex, in attempt order. -/
def impactAlts : List String :=
  ["impact", "applications", "application", "used for", "enabled", "led to"]

/-- Is this character one of the sentence terminators `[.!?]`? -/
def isSentenceEnd (c : Char) : Bool := c = '.' ∨ c = '!' ∨ c = '?'

/-- Attempt `/(?:impact|application(?:s)?|used for|enabled|led to)[^.!?]{0,100}[.!?]/i`
at one position; the result is the whole match (group 0). -/
def impactMatchHere (cs : List Char) : Option String :=
  (impactAlts.filterMap (fun alt =>
    if ciStartsWith cs alt.toList then
      let rest := cs.drop alt.length
      let run := rest.takeWhile (fun c => ¬ isSentenceEnd c)
      if run.length ≤ 100 then
        match rest.drop run.length with
        | c :: _ => some (String.mk (cs.take alt.length ++ run ++ [c]))
        | [] => none
      else none
    else none)).head?

/-- The leftmost match of the impact regex (whole match). -/
def impactMatch (s : String) : Option String :=
  regexScan impactMatchHere s.toList

/-- `(text.match(/a|b|.../g) || []).length`: the number of non-overlapping
leftmost matches of a literal alternation (attempted in order), fuelled by the
text length. -/
def countAltsAux (alts : List String) : Nat → List Char → Nat
  | 0, _ => 0
  | _, [] => 0
  | fuel + 1, c :: rest =>
      match alts.find? (fun a => a.toList.isPrefixOf (c :: rest)) with
      | some a => 1 + countAltsAux alts fuel ((c :: rest).drop a.toList.length)
      | none => countAltsAux alts fuel rest

/-- Count of global alternation matches in a string. -/
def countAlts (alts : List String) (s : String) : Nat :=
  countAltsAux alts s.toList.length s.toList

/-- `pageContent.split('\n').slice(0,3).join(' ')`. -/
def firstThreeLines (s : String) : String :=
  String.intercalate " " ((s.splitOn "\n").take 3)

/-! ## Small nodes: start, plan, errorHandling, checkCompletion, end -/

/-- `startNode` (nodes.js): logs and hands over to the planner. -/
def startNode (_env : Env) (ctx : Ctx) : NodeOut :=
  ⟨{ ctx with nextNode := some "planNode" }, []⟩

/-- `planNode` (nodes/planNode.js): asks the model for a plan plus refined
query as JSON; a parse failure falls back to the raw content / original task
(never fails the run).  Always transitions to `extractInfoNode`. -/
def planNode (env : Env) (ctx : Ctx) : NodeOut :=
  let planPrompt := "Task: " ++ ctx.task ++
    "\n\n1. Generate a detailed, step-by-step plan to accomplish this web task. Be explicit about navigation, search query refinement, typing, clicking, extraction, validation, and reporting.\n2. Extract the single best search query to use for web search.\n\nReturn your answer as a JSON object with two fields:\n- plan: a numbered, detailed step-by-step plan\n- refined_query: a single search query string, as would be typed into a search engine."
  let content := env.llm planPrompt
  let planObj : JVal :=
    match env.jsonParse content with
    | some v => v
    | none => .jobj [("plan", .jstr content), ("refined_query", .jstr ctx.task)]
  ⟨{ ctx with plan := planObj.lookup "plan",
              refinedQuery := planObj.lookup "refined_query",
              nextNode := some "extractInfoNode" }, []⟩

/-- `errorHandlingNode` (nodes.js lines 799-810): increment `retryCount`;
below 3 resume `context.lastNode` (defaulting to `takeActionNode`), otherwise
set `finalResult` to `'Error: ' + context.error` and end. -/
def errorHandlingNode (_env : Env) (ctx : Ctx) : NodeOut :=
  let r := ctx.retryCount + 1
  let c := { ctx with retryCount := r }
  if r < 3 then
    ⟨{ c with nextNode := some (c.lastNode.getD "takeActionNode") }, []⟩
  else
    ⟨{ c with finalResult := some ("Error: " ++ jsShowOptStr c.error),
              nextNode := some "endNode" }, []⟩

/-- The prompt of `checkCompletionNode`. -/
def checkPrompt (ctx : Ctx) : String :=
  "Task: " ++ ctx.task ++ "\nExtracted: " ++ jsShowOptStr ctx.extracted ++
  "\nIs the task complete? (yes/no). If yes, output the final answer."

/-- `checkCompletionNode` (nodes.js lines 813-824): `/yes/i.test(reply)`
terminates with the reply as `finalResult`; anything else loops back to
`extractInfoNode`. -/
def checkCompletionNode (env : Env) (ctx : Ctx) : NodeOut :=
  let reply := env.llm (checkPrompt ctx)
  if containsCI reply "yes" then
    ⟨{ ctx with finalResult := some reply, nextNode := some "endNode" }, []⟩
  else
    ⟨{ ctx with nextNode := some "extractInfoNode" }, []⟩

/-- `endNode` (nodes/endNode.js): assembles and logs the standard output
record (a console side effect) and sets `done`. -/
def endNode (_env : Env) (ctx : Ctx) : NodeOut :=
  ⟨{ ctx with done := true }, []⟩


/-! ## `ensureSelectorForTypeAction` (bundled in nodes/endNode.js) -/

/-- Update (or append) one key of an association list. -/
def setAssoc (fields : List (String × JVal)) (k : String) (v : JVal) : List (String × JVal) :=
  match fields with
  | [] => [(k, v)]
  | (k1, v1) :: rest => if k1 = k then (k1, v) :: rest else (k1, v1) :: setAssoc rest k v

/-- Read `args.k` as JS does inside `ensureSelectorForTypeAction`:
`args.k && args.k.trim() ? args.k : ''`.  A truthy non-string property makes
`.trim()` throw; the `Except` carries that `TypeError`. -/
def trimmedOrEmpty (argsV : JVal) (k : String) : Except String String :=
  match argsV.lookup k with
  | some (.jstr s) => .ok (if s ≠ "" ∧ jsTrim s ≠ "" then s else "")
  | some v => if v.truthy then .error ("args." ++ k ++ ".trim is not a function") else .ok ""
  | none => .ok ""

/-- `ensureSelectorForTypeAction` (source bundled in nodes/endNode.js):
for a `type` action, fill in the DuckDuckGo search-input selector and a query
derived from the task when they are missing; returns the (possibly rebuilt)
`args` and the `autoFilledSelector` flag.  Throws (as the JS does) when the
incoming `args` is `null` or a property is truthy but not a string. -/
def ensureSelectorForTypeAction (env : Env) (action : String) (args : Option JVal)
    (task : String) : Except String (Option JVal × Bool) :=
  if action = "type" then
    -- page.url() is read into `url`; both branches of the selector default
    -- assign the same literal, so the duckduckgo test on `url` is immaterial.
    let _url := env.pageUrl
    match args with
    | some .jnull => .error "Cannot read properties of null (reading 'selector')"
    | _ =>
      let argsV := args.getD (.jobj [])
      match trimmedOrEmpty argsV "selector" with
      | .error e => .error e
      | .ok sel0 =>
        let selector := if sel0 = "" then "input[name='q']" else sel0
        match trimmedOrEmpty argsV "text" with
        | .error e => .error e
        | .ok text0 =>
          let text := if text0 = "" then extractQueryFromTask task else text0
          if selector ≠ "" ∧ text ≠ "" then
            let base := match argsV with
              | .jobj fields => fields
              | _ => []
            .ok (some (.jobj (setAssoc (setAssoc base "selector" (.jstr selector)) "text" (.jstr text))), true)
          else .ok (args, false)
  else .ok (args, false)

/-! ## `extractInfoNode` (nodes/extractInfoNode.js)

The general-purpose extraction node: step-count ceiling first, then the
model decides an action, with DuckDuckGo-specific forced sequences, argument
autofill/validation, and the generic tool dispatch. -/

/-- The decision prompt of `extractInfoNode` (braces of the JSON template
written as escapes). -/
def extractInfoPrompt (task pageContent : String) : String :=
  "You are a general-purpose web agent. Given the following user task and page content, decide what action to take next. \nUser Task: " ++ task ++
  "\nCurrent Page Content (truncated):\n" ++ jsSlice pageContent 1500 ++
  "\nIMPORTANT: If you have completed the task or extracted all required information, respond with \x7b\n  \"action\": \"finish\", \"args\": \x7b\x7d, ...\x7d and do not repeat any previous actions. Only use 'finish' when you are certain the task is complete.\nRespond in strict JSON with the following format:\n\x7b\n  \"action\": \"<navigate|type|click|extract|finish>\",\n  \"args\": \x7b ... \x7d,\n  \"outputFormat\": \"<table|list|summary|custom>\",\n  \"outputSchema\": \x7b ...description of expected output structure... \x7d\n\x7d"

/-- JS template-literal stringification of the parsed `action` value, for the
invalid-action error message. -/
def jvalDisplay : JVal → String
  | .jstr s => s
  | .jnum n => toString n
  | .jbool b => cond b "true" "false"
  | .jnull => "null"
  | .jundef => "undefined"
  | .jobj _ => "[object Object]"
  | .jarr _ => ""

/-- `toolNameMap[action] || action`. -/
def mappedToolNameOf (action : String) : String :=
  if action = "type" then "type_text"
  else if action = "navigate" then "navigate_to_url"
  else if action = "click" then "click_element"
  else if action = "extract" then "extract_text"
  else action

/-- The four homepage prefixes of the DuckDuckGo detection. -/
def duckUrls : List String :=
  ["https://duckduckgo.com", "https://www.duckduckgo.com",
   "http://duckduckgo.com", "http://www.duckduckgo.com"]

/-- One extracted breakthrough record of the forced-parse branch. -/
structure BRec where
  title : String := ""
  description : String := ""
  contributors : String := ""
  year : String := ""
  sourceUrl : String := ""
  notableApplications : String := ""
  impact : String := ""
  deriving Repr

/-- JSON encoding of a breakthrough record (the object pushed by the source). -/
def BRec.toJVal (b : BRec) : JVal :=
  .jobj [("title", .jstr b.title), ("description", .jstr b.description),
         ("contributors", .jstr b.contributors), ("year", .jstr b.year),
         ("source_url", .jstr b.sourceUrl),
         ("notable_applications", .jstr b.notableApplications),
         ("impact", .jstr b.impact)]

/-- The per-result visit loop of the forced-parse branch: navigate to each
result URL, heuristically extract fields from the page text, and skip results
whose page load fails. -/
def visitLoop (env : Env) : List DuckResult → (List BRec × List EffectCall)
  | [] => ([], [])
  | r :: rest =>
      let url := r.url.getD ""
      let tail := visitLoop env rest
      match env.visitPage url with
      | .error _ => (tail.1, .pageGoto url :: tail.2)
      | .ok visit =>
          let pc := jsSlice visit.bodyText 3000
          let contributors := ((contributorsMatch pc).map jsTrim).getD ""
          let year := (yearMatch pc).getD ""
          let impact := ((impactMatch pc).map jsTrim).getD ""
          let description :=
            if jsTruthyOptStr r.snippet then r.snippet.getD "" else firstThreeLines pc
          let b : BRec :=
            { title := visit.title, description := description,
              contributors := contributors, year := year, sourceUrl := url,
              notableApplications := impact, impact := impact }
          (b :: tail.1, .pageGoto url :: tail.2)

/-- The forced-parse branch (extractInfoNode.js lines 169-234): on DuckDuckGo
after type+click+extract with the model still suggesting `type`, scrape the
top five results, visit each, build the breakthrough records and a keyword
trends summary, then return with `nextNode: null`. -/
def forcedParseBranch (env : Env) (ctx : Ctx) : NodeOut :=
  let results := env.duckResults.filter
    (fun r => jsTruthyOptStr r.url ∧ jsTruthyOptStr r.title)
  let (brs, calls) := visitLoop env (results.take 5)
  let trendsText := strToLower (String.intercalate " " (brs.map (fun b =>
    b.description ++ " " ++ b.impact ++ " " ++ b.notableApplications)))
  let trends : List String :=
    (if countAlts ["language model", "nlp", "gpt", "bert", "llm"] trendsText > 1 then
      ["Advancements in natural language processing and large language models."] else []) ++
    (if countAlts ["ethic", "fairness", "responsib", "bias"] trendsText > 1 then
      ["Increased focus on ethical AI and fairness."] else []) ++
    (if countAlts ["health", "biotech", "medical", "diagnos"] trendsText > 1 then
      ["Growth in AI applications in healthcare and biotechnology."] else []) ++
    (if countAlts ["efficient", "scalable", "optimization", "faster"] trendsText > 1 then
      ["Development of more efficient and scalable AI algorithms."] else []) ++
    (if countAlts ["creative", "art", "music", "design"] trendsText > 1 then
      ["Expansion of AI in creative industries and digital arts."] else [])
  let trendsSummary :=
    if trends.length > 0 then
      String.intercalate "\n" (trends.mapIdx (fun i t =>
        "- Trend " ++ toString (i + 1) ++ ": " ++ t))
    else "No clear trends detected."
  let resultObj : JVal :=
    .jobj [("breakthroughs", .jarr (brs.map BRec.toJVal)),
           ("trends_summary", .jstr trendsSummary)]
  let finishStep : Step :=
    { action := "finish", args := some (.jobj []), result := some resultObj }
  ⟨{ ctx with outputFormat := some (.jstr "custom"),
              outputSchema := some resultObj,
              nextNode := none,
              steps := ctx.steps ++ [finishStep] },
    calls⟩

/-- The forced-search branch (extractInfoNode.js lines 74-167): on the
DuckDuckGo homepage with no `type` step yet, reload the homepage, type the
query, submit (click or Enter fallback), wait for results (with the non-JS
fallback site), and extract — three forced steps in one pass. -/
def forcedSearchBranch (env : Env) (ctx : Ctx)
    (outputFormat outputSchema : Option JVal) : NodeOut :=
  -- user-agent/header housekeeping and cookie/storage clearing are modelled
  -- as effect-free (their failure modes are swallowed or irrelevant here)
  match env.gotoPage "https://duckduckgo.com" with
  | .error e => errTo ctx e [.pageGoto "https://duckduckgo.com"]
  | .ok _ =>
  let tr0 : List EffectCall := [.pageGoto "https://duckduckgo.com"]
  let query := extractQueryFromTask ctx.task
  if query = "" ∨ jsTrim query = "" then errTo ctx "No valid query for typing" tr0
  else
  let typeArgs : JVal := .jobj [("selector", .jstr "input[name='q']"), ("text", .jstr query)]
  if "type_text" ∉ ctx.toolNames then errTo ctx "type_text tool not found" tr0
  else
  match env.callTool "type_text" (some typeArgs) with
  | .error e => errTo ctx e (tr0 ++ [.toolCall "type_text" (some typeArgs)])
  | .ok _ =>
  let tr1 := tr0 ++ [.toolCall "type_text" (some typeArgs)]
  let typeStep : Step :=
    { tool := some "type_text", action := "type", args := some typeArgs, result := none }
  let forcedSteps := ctx.steps ++ [typeStep]
  let ctx1 := { ctx with pageContent := some env.pageContentStr }
  let clickSelectors := "input[type='submit'], button[type='submit'], form input[type='submit'], form button[type='submit']"
  if "click_element" ∉ ctx.toolNames then errTo ctx1 "click_element tool not found" tr1
  else
  -- page.waitForSelector(clickSelectors, 2000) has its rejection swallowed
  let clickArgs : JVal := .jobj [("selector", .jstr clickSelectors)]
  let clickAttempt := env.callTool "click_element" (some clickArgs)
  let tr2 := tr1 ++ [.toolCall "click_element" (some clickArgs)]
  let afterClick : Except String (String × Option JVal) :=
    match clickAttempt with
    | .ok r => .ok ("click", some (.jstr r))
    | .error _ =>
        match env.pressEnterInSearch with
        | .ok _ => .ok ("click_enter", some (.jstr "Pressed Enter as fallback"))
        | .error _ => .error "Search submit failed after typing"
  match afterClick with
  | .error e => errTo ctx1 e tr2
  | .ok (clickAction, clickResult) =>
  let clickStep : Step :=
    { tool := some "click_element", action := clickAction,
      args := some clickArgs, result := clickResult }
  let clickedSteps := forcedSteps ++ [clickStep]
  let ctx2 := { ctx1 with pageContent := some env.pageContentStr }
  -- wait for the results container, falling back to the non-JS site
  let afterWait : Except (String × List EffectCall) (String × List EffectCall) :=
    match env.waitForSelector "#links .result, .results--main .result" 10000 with
    | .ok _ => .ok ("#links .result, .results--main .result", tr2)
    | .error _ =>
        match env.gotoPage "https://html.duckduckgo.com/html/" with
        | .error e => .error (e, tr2 ++ [.pageGoto "https://html.duckduckgo.com/html/"])
        | .ok _ =>
        let tr3 := tr2 ++ [.pageGoto "https://html.duckduckgo.com/html/"]
        match env.typeInto "input[name=\"q\"]" query with
        | .error e => .error (e, tr3)
        | .ok _ =>
        match env.pressEnterKey with
        | .error e => .error (e, tr3)
        | .ok _ =>
        match env.waitForSelector ".result" 10000 with
        | .ok _ => .ok (".result", tr3)
        | .error _ => .error ("No search results found on DuckDuckGo", tr3)
  match afterWait with
  | .error (e, tr) => errTo ctx2 e tr
  | .ok (resultsSelector, tr4) =>
  if "extract_text" ∉ ctx.toolNames then errTo ctx2 "extract_text tool not found" tr4
  else
  let exArgs : JVal := .jobj [("selector", .jstr resultsSelector)]
  let tr5 := tr4 ++ [.toolCall "extract_text" (some exArgs)]
  match env.callTool "extract_text" (some exArgs) with
  | .error _ => errTo ctx2 "Extraction failed after type/click" tr5
  | .ok extractResult =>
  let exStep : Step :=
    { tool := some "extract_text", action := "extract",
      args := some exArgs, result := some (.jstr extractResult) }
  let extractSteps := clickedSteps ++ [exStep]
  ⟨{ ctx2 with
      steps := extractSteps, pageContent := some env.pageContentStr,
      outputFormat := outputFormat, outputSchema := outputSchema,
      nextNode := some "extractInfoNode",
      stepCount := ctx.stepCount + 1 }, tr5⟩

/-- The body of the `try` block of `extractInfoNode` after the action has
been accepted: tool lookup, forced branches, `type` fallback and autofill,
validation, and the generic dispatch. -/
def extractInfoTryBody (env : Env) (ctx : Ctx) (action : String) (args0 : Option JVal)
    (outputFormat outputSchema : Option JVal) : NodeOut :=
  let mappedToolName := mappedToolNameOf action
  let tool0 := ctx.toolNames.find? (fun t => t == mappedToolName || jsIncludes t action)
  let currentUrl := env.pageUrl
  let isDuck := duckUrls.any (fun u => jsStartsWith currentUrl u)
  let hasTyped := ctx.steps.any (fun s => s.action == "type")
  let hasClicked := ctx.steps.any (fun s => s.action == "click" || s.action == "click_enter")
  let hasExtracted := ctx.steps.any (fun s => s.action == "extract")
  if isDuck ∧ ¬ hasTyped then forcedSearchBranch env ctx outputFormat outputSchema
  else if isDuck ∧ hasTyped ∧ hasClicked ∧ hasExtracted ∧ action = "type" then
    forcedParseBranch env ctx
  else if tool0 = none ∧ action = "type" ∧ "type_text" ∈ ctx.toolNames then
    -- fallback: type with the selector/query derived from the task
    let query := extractQueryFromTask ctx.task
    let fargs : JVal := .jobj [("selector", .jstr "input[name='q']"), ("text", .jstr query)]
    match env.callTool "type_text" (some fargs) with
    | .error e => errTo ctx e [.toolCall "type_text" (some fargs)]
    | .ok res =>
        let newStep : Step :=
          { tool := some "type_text", action := action, args := some fargs,
            result := some (.jstr res) }
        ⟨{ ctx with
            steps := ctx.steps ++ [newStep],
            pageContent := some env.pageContentStr,
            outputFormat := outputFormat, outputSchema := outputSchema,
            nextNode := some "extractInfoNode", stepCount := ctx.stepCount + 1 },
          [.toolCall "type_text" (some fargs)]⟩
  else
    -- autofill a missing selector for a `type` action; `.ok none` models the
    -- explicit autofill-failure return, `.error` a thrown TypeError reaching
    -- the outer catch
    let autofillStep : Except String (Option (Option JVal)) :=
      if action == "type" && !(isNonBlankStr (JVal.lookupOpt args0 "selector")) then
        match ensureSelectorForTypeAction env action args0 ctx.task with
        | .error e => .error e
        | .ok (args2, autoFilled) =>
            if autoFilled then
              -- JS then mutates the original `args` object in place
              -- (`args.selector = autofilled.args.selector`), which throws
              -- when `args` is not an object
              match args0 with
              | some (.jobj fields) =>
                  .ok (some (some (.jobj (setAssoc fields "selector"
                    ((JVal.lookupOpt args2 "selector").getD .jundef)))))
              | some .jnull => .error "Cannot set properties of null (setting 'selector')"
              | none => .error "Cannot set properties of undefined (setting 'selector')"
              | some _ => .error "Cannot create property 'selector' on primitive value"
            else .ok none
      else .ok (some args0)
    match autofillStep with
    | .error e => errTo ctx e
    | .ok none => errTo ctx "Action 'type' missing required selector"
    | .ok (some args1) =>
      if ¬ validateActionArgs action args1 then
        errTo ctx ("Action '" ++ action ++ "' has invalid or missing arguments")
      else if action = "finish" then
        let finishStep : Step := { action := action, args := args1, result := none }
        ⟨{ ctx with outputFormat := outputFormat, outputSchema := outputSchema,
                    nextNode := some "checkCompletionNode",
                    steps := ctx.steps ++ [finishStep] }, []⟩
      else
        match tool0 with
        | none => errTo ctx ("No tool found for action: " ++ action)
        | some toolName =>
            match env.callTool toolName args1 with
            | .error e => errTo ctx e [.toolCall toolName args1]
            | .ok res =>
                let newStep : Step :=
                  { tool := some toolName, action := action, args := args1,
                    result := some (.jstr res) }
                ⟨{ ctx with
                    steps := ctx.steps ++ [newStep],
                    pageContent := some env.pageContentStr,
                    outputFormat := outputFormat, outputSchema := outputSchema,
                    nextNode := some "extractInfoNode",
                    stepCount := ctx.stepCount + 1 },
                  [.toolCall toolName args1]⟩

/-- `extractInfoNode` (nodes/extractInfoNode.js): the step-count ceiling comes
first; then the model's JSON decision is cleaned, parsed and validated, and
the try body above runs. -/
def extractInfoNode (env : Env) (ctx : Ctx) : NodeOut :=
  if ctx.stepCount ≥ 20 then
    ⟨{ ctx with error := some "Step limit exceeded. Possible infinite loop.",
                nextNode := some "errorHandlingNode" }, []⟩
  else
    let pageContent := env.pageContentStr
    let llmResponse := env.llm (extractInfoPrompt ctx.task pageContent)
    let cleanedOutput := cleanLLMJsonOutput llmResponse
    match env.jsonParse cleanedOutput with
    | none => errTo ctx "LLM output not JSON"
    | some parsed =>
      let actionV := parsed.lookup "action"
      let args := parsed.lookup "args"
      let outputFormat := parsed.lookup "outputFormat"
      let outputSchema := parsed.lookup "outputSchema"
      match actionV with
      | some (.jstr action) =>
          if action ≠ "" ∧
             (action = "navigate" ∨ action = "type" ∨ action = "click" ∨
              action = "extract" ∨ action = "finish") then
            extractInfoTryBody env ctx action args outputFormat outputSchema
          else
            errTo ctx ("LLM returned invalid or missing action: " ++ action)
      | v =>
          errTo ctx ("LLM returned invalid or missing action: " ++
            (match v with | some w => jvalDisplay w | none => "undefined"))


/-! ## `takeActionNode` (nodes.js lines 720-796, identical in unnamed/part_003
and test.js) -/

/-- The switch body of `takeActionNode` (its `try` block): dispatch the chosen
action to the tool found by name, track the action, reset the retry counter on
success; a `navigate` success immediately re-runs `extractInfoNode`.  A thrown
error is stored as `context.error = e`; since the stored value is an `Error`
object, its later string conversion carries an extra `Error: ` prefix, which
the stored string reproduces. -/
def takeActionTryBody (env : Env) (ctx : Ctx) (action : Option String)
    (args : Option JVal) : NodeOut :=
  match action with
  | some "navigate" =>
      if "navigate_to_url" ∉ ctx.toolNames then
        errTo ctx "Error: Tool 'navigate_to_url' not found"
      else
        let navInput : Option JVal :=
          some (.jobj [("url", (JVal.lookupOpt args "url").getD .jundef)])
        match env.callTool "navigate_to_url" navInput with
        | .error e => errTo ctx ("Error: " ++ e) [.toolCall "navigate_to_url" navInput]
        | .ok _ =>
            let c2 := { ctx with actionsTaken := ctx.actionsTaken ++ [("navigate", args)] }
            let inner := extractInfoNode env c2
            ⟨{ inner.ctx with retryCount := 0, nextNode := some "extractInfoNode" },
              .toolCall "navigate_to_url" navInput :: inner.calls⟩
  | some "type" =>
      if "type_text" ∉ ctx.toolNames then errTo ctx "Error: Tool 'type_text' not found"
      else
        match env.callTool "type_text" args with
        | .error e => errTo ctx ("Error: " ++ e) [.toolCall "type_text" args]
        | .ok _ =>
            ⟨{ ctx with actionsTaken := ctx.actionsTaken ++ [("type", args)],
                        retryCount := 0, nextNode := some "extractInfoNode" },
              [.toolCall "type_text" args]⟩
  | some "click" =>
      if "click_element" ∉ ctx.toolNames then errTo ctx "Error: Tool 'click_element' not found"
      else
        match env.callTool "click_element" args with
        | .error e => errTo ctx ("Error: " ++ e) [.toolCall "click_element" args]
        | .ok _ =>
            ⟨{ ctx with actionsTaken := ctx.actionsTaken ++ [("click", args)],
                        retryCount := 0, nextNode := some "extractInfoNode" },
              [.toolCall "click_element" args]⟩
  | some "extract" =>
      if "extract_text" ∉ ctx.toolNames then errTo ctx "Error: Tool 'extract_text' not found"
      else
        match env.callTool "extract_text" args with
        | .error e => errTo ctx ("Error: " ++ e) [.toolCall "extract_text" args]
        | .ok res =>
            ⟨{ ctx with extracted := some res,
                        actionsTaken := ctx.actionsTaken ++ [("extract", args)],
                        retryCount := 0, nextNode := some "extractInfoNode" },
              [.toolCall "extract_text" args]⟩
  | some "finish" => ⟨{ ctx with nextNode := some "checkCompletionNode" }, []⟩
  | other => errTo ctx ("Error: Unknown action: " ++ jsShowOptStr other)

/-- `takeActionNode`: for a `navigate` action, first the navigation-loop
guard, then the already-on-target short circuit (no tool call, straight to
`analyzePageNode`); otherwise the loop counter resets and the switch body
runs. -/
def takeActionNode (env : Env) (ctx : Ctx) : NodeOut :=
  let action := ctx.nextAction
  let args := ctx.nextArgs
  if action = some "navigate" then
    let nl := ctx.navLoopCount + 1
    let c1 := { ctx with navLoopCount := nl }
    if nl > 3 then
      errTo c1 "Navigation loop detected: tried to navigate to the same URL too many times."
    else
      let urlIsCurrent : Bool := match JVal.lookupOpt args "url" with
        | some (.jstr u) => env.pageUrl = u
        | _ => false
      if urlIsCurrent then
        ⟨{ c1 with actionsTaken := c1.actionsTaken ++ [("navigate", args)],
                   nextNode := some "analyzePageNode" }, []⟩
      else
        takeActionTryBody env { c1 with navLoopCount := 0 } action args
  else
    takeActionTryBody env ctx action args

/-! ## `analyzePageNode` (nodes/analyzePageNode.js) -/

/-- The allowed-action vocabulary: the full set, minus `navigate` when the
page is already on the configured target URL. -/
def analyzeAllowedActions (env : Env) (ctx : Ctx) : List String :=
  let base := ["navigate", "type", "click", "extract", "finish"]
  if jsTruthyOptStr ctx.taskTargetUrl ∧ env.pageUrl = ctx.taskTargetUrl.getD "" then
    base.filter (· ≠ "navigate")
  else base

/-- The prompt of `analyzePageNode` (the long static instruction/example text
of the template is elided: prompt text is opaque to the model client and
outside every claim; the dynamic pieces are kept). -/
def analyzePrompt (env : Env) (ctx : Ctx) (allowed : List String) : String :=
  "\nYou are an autonomous web agent. Your allowed actions are ONLY: " ++
  String.intercalate ", " allowed ++
  "\nHere is your task: " ++ ctx.task ++
  "\nCurrent page URL: " ++ env.pageUrl ++
  "\nCurrent Page HTML (first 500 chars): " ++
  (match ctx.pageContent with
   | some pc => if pc ≠ "" then jsSlice pc 500 else ""
   | none => "") ++
  "\n[static instruction and example text of the template]"

/-- The preference-order fallback of the source:
`allowedActions.find(a => ['type','click','extract','finish'].includes(a)) || allowedActions[0]`. -/
def fallbackAction (allowed : List String) : String :=
  (allowed.find? (fun a =>
    a = "type" ∨ a = "click" ∨ a = "extract" ∨ a = "finish")).getD (allowed.headD "undefined")

/-- `analyzePageNode`: parse the model's structured decision; a parse failure
goes to `errorHandlingNode` with the cleaned output captured in `error`; an
action outside the allowed set is replaced by the preference fallback with
empty arguments; a `navigate` with bare-string arguments is coerced to
`\x7b url \x7d`; always hands over to `takeActionNode` on success. -/
def analyzePageNode (env : Env) (ctx : Ctx) : NodeOut :=
  let allowed := analyzeAllowedActions env ctx
  let cleaned := cleanLLMJsonOutput (env.llm (analyzePrompt env ctx allowed))
  match env.parserParse cleaned with
  | none =>
      ⟨{ ctx with error := some ("Invalid LLM output: " ++ cleaned),
                  nextNode := some "errorHandlingNode" }, []⟩
  | some parsed0 =>
      let parsed := if parsed0.action ∈ allowed then parsed0
        else { action := fallbackAction allowed, arguments := .jobj [] }
      let args := if parsed.action = "navigate" then
          match parsed.arguments with
          | .jstr s => .jobj [("url", .jstr s)]
          | a => a
        else parsed.arguments
      ⟨{ ctx with nextAction := some parsed.action, nextArgs := some args,
                  nextNode := some "takeActionNode" }, []⟩

/-! ## `extractWithSelectorNode` (bundled in nodes/extractIndexFromTask.js)

The selector-resolution engine.  A page oracle attempt is: wait for the
selector (bounded), query all elements, read the trimmed text at the index;
`.ok (some t)` is a non-empty extraction, `.ok none` an in-vain attempt
(missing index or empty text), `.error` a wait/read rejection. -/

/-- One extraction attempt of the engine. -/
structure SelAttempt where
  selector : String
  index : Nat
  timeoutMs : Nat
  deriving Repr, DecidableEq

/-- One attempt against the page. -/
def tryAttempt (env : Env) (sel : String) (idx : Nat) (timeout : Nat) :
    Except String (Option String) :=
  match env.waitForSelector sel timeout with
  | .error e => .error e
  | .ok _ =>
      let els := env.queryTexts sel
      match els.get? idx with
      | some raw =>
          let t := jsTrim raw
          if t ≠ "" then .ok (some t) else .ok none
      | none => .ok none

/-- `fallback.selector + fallback.index`: the seen-set key. -/
def candKey (c : Cand) : String := c.selector ++ toString c.index

/-- The mutable scan state of the candidate loop: the seen-set, the last
recorded error, and the attempt log. -/
structure ScanState where
  tried : List String := []
  lastError : Option String := none
  attempts : List SelAttempt := []
  deriving Repr

/-- The `for (let i = 0; ...)` candidate loop of the source: positions equal
to `extractionIndex` are skipped when the main candidate was tried
(`skipIdx`), seen keys are skipped, and the first non-empty text
short-circuits. -/
def scanCandsImpl (env : Env) : List Cand → Nat → Option Nat → ScanState →
    (ScanState × Option String)
  | [], _, _, st => (st, none)
  | c :: rest, i, skipIdx, st =>
      if skipIdx = some i then scanCandsImpl env rest (i + 1) skipIdx st
      else if candKey c ∈ st.tried then scanCandsImpl env rest (i + 1) skipIdx st
      else
        let st1 : ScanState :=
          { tried := st.tried ++ [candKey c],
            lastError := st.lastError,
            attempts := st.attempts ++ [⟨c.selector, c.index, 2000⟩] }
        match tryAttempt env c.selector c.index 2000 with
        | .ok (some t) => (st1, some t)
        | .ok none => scanCandsImpl env rest (i + 1) skipIdx st1
        | .error e => scanCandsImpl env rest (i + 1) skipIdx
            { st1 with lastError := some e }

/-- A selector-resolution result: the context update plus the attempt log. -/
structure SelOut where
  ctx : Ctx
  attempts : List SelAttempt
  deriving Repr

/-- `extractWithSelectorNode`, translated from the source: primary attempt
(4s), the candidate at `extractionIndex` (2s, keyed into the seen-set,
`mainTried`), then the positional candidate loop; on total failure a
synthetic `finalResult` carrying the last error message. -/
def extractWithSelectorNode (env : Env) (ctx : Ctx) : SelOut :=
  let sel := ctx.extractionSelector
  let idx := ctx.extractionIndex
  let cands := ctx.candidateSelectors
  let a0 : List SelAttempt := [⟨sel, idx, 4000⟩]
  match tryAttempt env sel idx 4000 with
  | .ok (some t) =>
      ⟨{ ctx with finalResult := some t, nextNode := some "endNode" }, a0⟩
  | first =>
    let le0 : Option String := match first with
      | .error e => some e
      | _ => none
    let afterMain : ScanState × Option String × Option Nat :=
      match cands.get? idx with
      | some c =>
          -- the seen-set is empty here, so the membership guard always passes
          let st1 : ScanState :=
            { tried := [candKey c], lastError := le0,
              attempts := a0 ++ [⟨c.selector, c.index, 2000⟩] }
          (match tryAttempt env c.selector c.index 2000 with
           | .ok (some t) => (st1, some t, some idx)
           | .ok none => (st1, none, some idx)
           | .error e => ({ st1 with lastError := some e }, none, some idx))
      | none => (⟨[], le0, a0⟩, none, none)
    match afterMain with
    | (st, some t, _) =>
        ⟨{ ctx with finalResult := some t, nextNode := some "endNode" }, st.attempts⟩
    | (st, none, skipIdx) =>
        match scanCandsImpl env cands 0 skipIdx st with
        | (st2, some t) =>
            ⟨{ ctx with finalResult := some t, nextNode := some "endNode" }, st2.attempts⟩
        | (st2, none) =>
            ⟨{ ctx with
                finalResult := some ("Extraction failed: " ++
                  (st2.lastError.getD "No candidates matched.")),
                nextNode := some "endNode" }, st2.attempts⟩

/-! ### The engine contract, written from the specification's words

Spec section 4.2: try (1) the primary selector/index with a 4s wait, (2) the
candidate at position `index` if in range with a 2s wait, (3) every remaining
candidate in list order, skipping `(selector, index)` pairs already tried
(de-duplicated via a seen-set keyed by selector+index concatenation);
short-circuit on the first non-empty trimmed text; on total failure a
synthetic result with the last error's message or the generic no-candidates
message. -/

/-- A resolution outcome per the specification: the attempts made in order,
the first successful text, and the last recorded error. -/
structure SpecOut where
  attempts : List SelAttempt
  outcome : Option String
  lastError : Option String
  deriving Repr

/-- Modelled from the spec: scan candidates in order with a seen-set,
short-circuiting on the first non-empty trimmed text. -/
def specScanCands (env : Env) : List Cand → List String → Option String →
    List SelAttempt → SpecOut
  | [], _, le, acc => ⟨acc, none, le⟩
  | c :: rest, seen, le, acc =>
      if candKey c ∈ seen then specScanCands env rest seen le acc
      else
        let acc1 := acc ++ [⟨c.selector, c.index, 2000⟩]
        let seen1 := seen ++ [candKey c]
        match tryAttempt env c.selector c.index 2000 with
        | .ok (some t) => ⟨acc1, some t, le⟩
        | .ok none => specScanCands env rest seen1 le acc1
        | .error e => specScanCands env rest seen1 (some e) acc1

/-- Modelled from the spec: the full priority -- primary first, then the
candidate at the primary index moved to the front of the remaining
candidates. -/
def specResolution (env : Env) (sel : String) (idx : Nat) (cands : List Cand) :
    SpecOut :=
  let a0 : List SelAttempt := [⟨sel, idx, 4000⟩]
  match tryAttempt env sel idx 4000 with
  | .ok (some t) => ⟨a0, some t, none⟩
  | first =>
      let le0 : Option String := match first with
        | .error e => some e
        | _ => none
      let seq := match cands.get? idx with
        | some c => c :: cands.eraseIdx idx
        | none => cands
      specScanCands env seq [] le0 a0

/-- The `finalResult` the spec prescribes for a resolution outcome. -/
def specFinalResult (o : SpecOut) : String :=
  match o.outcome with
  | some t => t
  | none => "Extraction failed: " ++ (o.lastError.getD "No candidates matched.")

/-! ## The orchestrator's extraction stage
(nodes/multiAgentOrchestrator.js, `extractBreakthroughFromPage`) -/

/-- The orchestrator's oracle environment. -/
structure OrchEnv where
  loaderContent : String → Except String String := fun _ => .error "loader failed"
  puppeteerBody : String → Except String String := fun _ => .error "goto failed"
  llmRaw : String → String := fun _ => ""
  jsonParse : String → Option JVal := fun _ => none

/-- The five keys of the fixed extraction schema (zod object of strings). -/
def breakthroughSchemaKeys : List String :=
  ["Description", "Main Contributors/Organizations", "Year", "Source URL",
   "Notable Applications/Impact"]

/-- The deterministic default record substituted on schema failure. -/
def defaultBreakthrough (snippet : Option String) (url : String) : JVal :=
  .jobj [("Description", .jstr (snippet.getD "")),
         ("Main Contributors/Organizations", .jstr "N/A"),
         ("Year", .jstr "N/A"),
         ("Source URL", .jstr url),
         ("Notable Applications/Impact", .jstr "N/A")]

/-- The extraction prompt (static text kept, dynamic pieces interpolated). -/
def breakthroughPrompt (title snippet : Option String) (url pageContent : String) :
    String :=
  "Extract the following fields from the article below. If information is not available, return 'N/A'.\n\nFields:\n- Description\n- Main Contributors/Organizations\n- Year\n- Source URL\n- Notable Applications/Impact\n\nArticle Title: " ++
  jsShowOptStr title ++ "\nSnippet: " ++ jsShowOptStr snippet ++ "\nURL: " ++ url ++
  "\nContent: " ++ jsSlice pageContent 4000 ++ "\n\nReturn as JSON."

/-- The page content the extraction stage settles on for one result:
document loader first, the browser fallback second, the snippet (or empty
string) last. -/
def orchPageContent (env : OrchEnv) (url : String) (snippet : Option String) : String :=
  match env.loaderContent url with
  | .ok c => c
  | .error _ =>
      match env.puppeteerBody url with
      | .ok c => c
      | .error _ => snippet.getD ""

/-- The raw model response of the extraction stage. -/
def orchRaw (env : OrchEnv) (url : String) (title snippet : Option String) : String :=
  env.llmRaw (breakthroughPrompt title snippet url (orchPageContent env url snippet))

/-- `extractBreakthroughFromPage`: load the page (document loader, then the
browser fallback, then the snippet), ask the model for the five fields, and
replace any parse/validation failure with the deterministic default record. -/
def extractBreakthroughFromPage (env : OrchEnv) (url : String)
    (title snippet : Option String) : JVal :=
  let raw := orchRaw env url title snippet
  match env.jsonParse raw with
  | none => defaultBreakthrough snippet url
  | some v =>
      match zodParseStrings breakthroughSchemaKeys v with
      | none => defaultBreakthrough snippet url
      | some structured => structured

/-! ## The workflow controller (nodes.js lines 833-877)

`lastNode` is assigned the *current* node name before each dispatch; the
node's returned context is merged and the loop re-dispatches on `nextNode`
until `done`.  An unknown (or missing) node name makes the JS loop throw,
modelled as the `crashed` flag. -/

/-- A controller state: the node about to run and the shared context. -/
structure MState where
  current : Option String
  ctx : Ctx
  crashed : Bool := false
  deriving Repr

/-- The `nodeMap` dispatch. -/
def dispatchNode (env : Env) (name : String) (ctx : Ctx) : Option NodeOut :=
  if name = "startNode" then some (startNode env ctx)
  else if name = "planNode" then some (planNode env ctx)
  else if name = "extractInfoNode" then some (extractInfoNode env ctx)
  else if name = "extractWithSelectorNode" then
    some ⟨(extractWithSelectorNode env ctx).ctx, []⟩
  else if name = "analyzePageNode" then some (analyzePageNode env ctx)
  else if name = "takeActionNode" then some (takeActionNode env ctx)
  else if name = "errorHandlingNode" then some (errorHandlingNode env ctx)
  else if name = "checkCompletionNode" then some (checkCompletionNode env ctx)
  else if name = "endNode" then some (endNode env ctx)
  else none

/-- One controller iteration. -/
def stepM (env : Env) (s : MState) : MState :=
  if s.ctx.done ∨ s.crashed then s
  else
    match s.current with
    | none => { s with crashed := true }
    | some name =>
        match dispatchNode env name { s.ctx with lastNode := some name } with
        | none => { s with crashed := true }
        | some out => { current := out.ctx.nextNode, ctx := out.ctx, crashed := false }

/-- Run the controller for a bounded number of iterations (the loop is a
no-op once `done` or crashed). -/
def runM (env : Env) : Nat → MState → MState
  | 0, s => s
  | n + 1, s => runM env n (stepM env s)

/-- The names of the nodes executed during the first `n` iterations. -/
def execTrace (env : Env) : Nat → MState → List String
  | 0, _ => []
  | n + 1, s =>
      if s.ctx.done ∨ s.crashed then []
      else
        match s.current with
        | none => []
        | some name => name :: execTrace env n (stepM env s)


/-- Modelled from the claim's wording: the first action of the fixed
preference order `[type, click, extract, finish]` that remains allowed,
defaulting to the first allowed action if none of those remain. -/
def prefFallbackSpec (allowed : List String) : String :=
  ((["type", "click", "extract", "finish"].filter (· ∈ allowed)).headD
    (allowed.headD "undefined"))

/-- An environment in which the model picks a valid `click` with valid
arguments and the tool call succeeds. -/
def envB : Env :=
  { pageUrl := "https://example.com/",
    jsonParse := fun _ => some (.jobj
      [("action", .jstr "click"), ("args", .jobj [("selector", .jstr "#btn")])]),
    callTool := fun _ _ => .ok "page content" }

/-- A context mid-run with two retries on the counter. -/
def ctxB : Ctx :=
  { task := "demo", retryCount := 2,
    toolNames := ["navigate_to_url", "click_element", "type_text", "extract_text"] }

/-- validated click arguments carrying one extra key. -/
def cexArgs : JVal := .jobj [("selector", .jstr "#a"), ("extra", .jstr "kept")]

/-- The position of the first opening brace or bracket, per the claim's
wording. -/
def firstOpenIdx (cs : List Char) : Option Nat :=
  cs.findIdx? (fun c => c == '{' || c == '[')

/-- The position of the last closing brace or bracket, per the claim's
wording. -/
def lastCloseIdx (cs : List Char) : Option Nat :=
  match cs.reverse.findIdx? (fun c => c == '}' || c == ']') with
  | some i => some (cs.length - 1 - i)
  | none => none

/-! # Theorems -/

/-- C7: `checkCompletionNode` terminates the run with the model's reply as
`finalResult` (nextNode `endNode`) if and only if the reply contains `yes`
matched case-insensitively anywhere; every other reply transitions back to
`extractInfoNode` without setting `finalResult`. -/
theorem checkCompletion_terminates_iff_yes (env : Env) (ctx : Ctx) :
    (((checkCompletionNode env ctx).ctx.nextNode = some "endNode" ∧
      (checkCompletionNode env ctx).ctx.finalResult = some (env.llm (checkPrompt ctx)))
      ↔ containsCI (env.llm (checkPrompt ctx)) "yes" = true) ∧
    (containsCI (env.llm (checkPrompt ctx)) "yes" = false →
      (checkCompletionNode env ctx).ctx.nextNode = some "extractInfoNode" ∧
      (checkCompletionNode env ctx).ctx.finalResult = ctx.finalResult) := by
  unfold checkCompletionNode
  cases h : containsCI (env.llm (checkPrompt ctx)) "yes" with
  | true => simp [h]
  | false =>
      constructor
      · simp only [h, if_neg (Bool.false_ne_true)]
        constructor
        · rintro ⟨h1, -⟩
          exact absurd h1 (by simp [show ("extractInfoNode" : String) ≠ "endNode" from by decide])
        · intro hc
          exact absurd hc Bool.false_ne_true
      · intro _
        simp [h]

/-- C7 witness: a concrete reply containing `YES` terminates with that reply,
and a concrete reply without it loops back. -/
theorem checkCompletion_terminates_iff_yes_witness :
    (checkCompletionNode { llm := fun _ => "YES, done." } {}).ctx.nextNode = some "endNode" ∧
    (checkCompletionNode { llm := fun _ => "not finished" } {}).ctx.nextNode =
      some "extractInfoNode" := by
  constructor
  · exact ((checkCompletion_terminates_iff_yes { llm := fun _ => "YES, done." } {}).1.mpr
      (by decide)).1
  · exact ((checkCompletion_terminates_iff_yes { llm := fun _ => "not finished" } {}).2
      (by decide)).1

/-- C8: in the orchestrator's extraction stage, when the model's response
fails to JSON-parse or fails the fixed 5-field schema,
`extractBreakthroughFromPage` returns the deterministic default record:
`Description` is the result's snippet (or empty), `Source URL` is the
result's url, the remaining three fields are `N/A` — schema failure never
raises out of the task (the function is total by construction). -/
theorem extractBreakthrough_default_on_schema_failure (env : OrchEnv) (url : String)
    (title snippet : Option String)
    (h : ∀ v, env.jsonParse (orchRaw env url title snippet) = some v →
      zodParseStrings breakthroughSchemaKeys v = none) :
    extractBreakthroughFromPage env url title snippet = defaultBreakthrough snippet url ∧
    (defaultBreakthrough snippet url).lookup "Description" = some (.jstr (snippet.getD "")) ∧
    (defaultBreakthrough snippet url).lookup "Source URL" = some (.jstr url) ∧
    (defaultBreakthrough snippet url).lookup "Main Contributors/Organizations" =
      some (.jstr "N/A") ∧
    (defaultBreakthrough snippet url).lookup "Year" = some (.jstr "N/A") ∧
    (defaultBreakthrough snippet url).lookup "Notable Applications/Impact" =
      some (.jstr "N/A") := by
  refine ⟨?_, rfl, rfl, rfl, rfl, rfl⟩
  unfold extractBreakthroughFromPage
  cases hj : env.jsonParse (orchRaw env url title snippet) with
  | none => simp only [hj]
  | some v => simp only [hj, h v hj]

/-- C8 witness: a model reply that is not JSON yields the default record. -/
theorem extractBreakthrough_default_on_schema_failure_witness :
    extractBreakthroughFromPage { llmRaw := fun _ => "not json" } "https://x.example" none
        (some "snip") =
      defaultBreakthrough (some "snip") "https://x.example" :=
  (extractBreakthrough_default_on_schema_failure { llmRaw := fun _ => "not json" }
    "https://x.example" none (some "snip") (fun v hv => by simp at hv)).1

/-- C4: when the pending action is `navigate` and `arguments.url` is a string
equal to the current page URL (with the navigation-loop counter within its
ceiling), `takeActionNode` issues no Browser Driver call, appends to
`actionsTaken`, routes to `analyzePageNode`, and changes no other context
field (the full output record is pinned). -/
theorem takeAction_nav_idempotent (env : Env) (ctx : Ctx) (u : String)
    (ha : ctx.nextAction = some "navigate")
    (hu : JVal.lookupOpt ctx.nextArgs "url" = some (.jstr u))
    (hcur : env.pageUrl = u)
    (hnav : ctx.navLoopCount + 1 ≤ 3) :
    takeActionNode env ctx =
      ⟨{ ctx with navLoopCount := ctx.navLoopCount + 1,
                  actionsTaken := ctx.actionsTaken ++ [("navigate", ctx.nextArgs)],
                  nextNode := some "analyzePageNode" }, []⟩ := by
  unfold takeActionNode
  rw [ha]
  rw [if_pos rfl]
  rw [if_neg (by omega : ¬ (ctx.navLoopCount + 1 > 3))]
  rw [hu]
  simp [hcur]

/-- C4 witness: a concrete context already on the target URL. -/
theorem takeAction_nav_idempotent_witness :
    takeActionNode { pageUrl := "https://duckduckgo.com" }
        { nextAction := some "navigate",
          nextArgs := some (.jobj [("url", .jstr "https://duckduckgo.com")]),
          navLoopCount := 1 } =
      ⟨{ nextAction := some "navigate",
         nextArgs := some (.jobj [("url", .jstr "https://duckduckgo.com")]),
         navLoopCount := 2,
         actionsTaken := [("navigate", some (.jobj [("url", .jstr "https://duckduckgo.com")]))],
         nextNode := some "analyzePageNode" }, []⟩ :=
  takeAction_nav_idempotent { pageUrl := "https://duckduckgo.com" }
    { nextAction := some "navigate",
      nextArgs := some (.jobj [("url", .jstr "https://duckduckgo.com")]),
      navLoopCount := 1 } "https://duckduckgo.com" rfl rfl rfl (by decide)

/-- C5: when the parsed model output names an action outside the currently
allowed set, `analyzePageNode` substitutes the first action of the preference
order that remains allowed (which is always `type` here), sets its arguments
to the empty object, and still transitions to `takeActionNode`. -/
theorem analyzePage_invalid_action_fallback (env : Env) (ctx : Ctx) (pa : PAction)
    (hparse : env.parserParse (cleanLLMJsonOutput
      (env.llm (analyzePrompt env ctx (analyzeAllowedActions env ctx)))) = some pa)
    (hinv : pa.action ∉ analyzeAllowedActions env ctx) :
    (analyzePageNode env ctx).ctx.nextAction =
      some (prefFallbackSpec (analyzeAllowedActions env ctx)) ∧
    prefFallbackSpec (analyzeAllowedActions env ctx) = "type" ∧
    (analyzePageNode env ctx).ctx.nextArgs = some (.jobj []) ∧
    (analyzePageNode env ctx).ctx.nextNode = some "takeActionNode" := by
  have hfb : fallbackAction (analyzeAllowedActions env ctx) = "type" ∧
      prefFallbackSpec (analyzeAllowedActions env ctx) = "type" := by
    unfold analyzeAllowedActions fallbackAction prefFallbackSpec
    by_cases h : jsTruthyOptStr ctx.taskTargetUrl ∧ env.pageUrl = ctx.taskTargetUrl.getD ""
    · rw [if_pos h]
      exact ⟨by decide, by decide⟩
    · rw [if_neg h]
      exact ⟨by decide, by decide⟩
  unfold analyzePageNode
  simp only [hparse]
  rw [if_neg hinv]
  simp [hfb.1, hfb.2]

/-- C5 witness: a parsed `search` suggestion is replaced by `type` with empty
arguments and the run proceeds to `takeActionNode`. -/
theorem analyzePage_invalid_action_fallback_witness :
    (analyzePageNode { parserParse := fun _ => some ⟨"search", .jobj []⟩ } {}).ctx.nextAction =
        some "type" ∧
    (analyzePageNode { parserParse := fun _ => some ⟨"search", .jobj []⟩ } {}).ctx.nextArgs =
        some (.jobj []) ∧
    (analyzePageNode { parserParse := fun _ => some ⟨"search", .jobj []⟩ } {}).ctx.nextNode =
        some "takeActionNode" := by
  have h := analyzePage_invalid_action_fallback
    { parserParse := fun _ => some ⟨"search", .jobj []⟩ } {} ⟨"search", .jobj []⟩ rfl
    (by decide)
  exact ⟨h.2.1 ▸ h.1, h.2.2.1, h.2.2.2⟩


/-- One-step unfolding of the bounded controller run. -/
theorem runM_succ (env : Env) (n : Nat) (s : MState) :
    runM env (n + 1) s = runM env n (stepM env s) := rfl

/-- One-step unfolding of the execution trace at a live state. -/
theorem execTrace_cons (env : Env) (n : Nat) (s : MState) (name : String)
    (h1 : s.ctx.done = false) (h2 : s.crashed = false) (h3 : s.current = some name) :
    execTrace env (n + 1) s = name :: execTrace env n (stepM env s) := by
  show (if s.ctx.done ∨ s.crashed then [] else
      match s.current with
      | none => []
      | some nm => nm :: execTrace env n (stepM env s)) = _
  rw [if_neg (by simp [h1, h2]), h3]

/-- From a state about to run `errorHandlingNode`, the run finishes within
five controller iterations: because the controller names `errorHandlingNode`
itself as `lastNode` before dispatching it, the retry target is always
`errorHandlingNode` again, so the node re-enters only itself (at most three
passes) and then `endNode`, with `finalResult` set to the error string. -/
theorem ehLoopLemma (env : Env) (c : Ctx) (hc : c.done = false) :
    (runM env 5 ⟨some "errorHandlingNode", c, false⟩).ctx.done = true ∧
    (runM env 5 ⟨some "errorHandlingNode", c, false⟩).ctx.finalResult =
      some ("Error: " ++ jsShowOptStr c.error) ∧
    (execTrace env 5 ⟨some "errorHandlingNode", c, false⟩).count "extractInfoNode" = 0 ∧
    (execTrace env 5 ⟨some "errorHandlingNode", c, false⟩).count "errorHandlingNode" ≤ 3 := by
  match hr : c.retryCount with
  | 0 =>
      simp [runM, stepM, dispatchNode, errorHandlingNode, endNode, execTrace, hc, hr,
        List.count_cons]
  | 1 =>
      simp [runM, stepM, dispatchNode, errorHandlingNode, endNode, execTrace, hc, hr,
        List.count_cons]
  | n + 2 =>
      simp [runM, stepM, dispatchNode, errorHandlingNode, endNode, execTrace, hc, hr,
        List.count_cons, show ¬ (n + 1 + 1 + 1 < 3) from by omega]

/-- C1: once `stepCount` reaches the ceiling of 20, `extractInfoNode` invokes
no tool and fails to `errorHandlingNode` with the infinite-loop error; from
that point the run reaches `endNode` (within six controller iterations, with
the step-limit error as the final result) and the failing state is never
re-entered: `extractInfoNode` appears exactly once in the execution trace. -/
theorem stepLimit_fails_closed (env : Env) (ctx : Ctx)
    (h : 20 ≤ ctx.stepCount) (hd : ctx.done = false) :
    (extractInfoNode env ctx).calls = [] ∧
    (extractInfoNode env ctx).ctx.nextNode = some "errorHandlingNode" ∧
    (extractInfoNode env ctx).ctx.error =
      some "Step limit exceeded. Possible infinite loop." ∧
    (runM env 6 ⟨some "extractInfoNode", ctx, false⟩).ctx.done = true ∧
    (runM env 6 ⟨some "extractInfoNode", ctx, false⟩).ctx.finalResult =
      some ("Error: " ++ "Step limit exceeded. Possible infinite loop.") ∧
    (execTrace env 6 ⟨some "extractInfoNode", ctx, false⟩).count "extractInfoNode" = 1 := by
  have hnode : ∀ c' : Ctx, c'.stepCount = ctx.stepCount →
      extractInfoNode env c' = ⟨{ c' with
        error := some "Step limit exceeded. Possible infinite loop.",
        nextNode := some "errorHandlingNode" }, []⟩ := by
    intro c' hc'
    unfold extractInfoNode
    rw [if_pos (by omega : c'.stepCount ≥ 20)]
  have hstep : stepM env ⟨some "extractInfoNode", ctx, false⟩ =
      ⟨some "errorHandlingNode",
        { ctx with lastNode := some "extractInfoNode",
                   error := some "Step limit exceeded. Possible infinite loop.",
                   nextNode := some "errorHandlingNode" }, false⟩ := by
    simp [stepM, dispatchNode, hd, hnode]
  refine ⟨?_, ?_, ?_, ?_, ?_, ?_⟩
  · rw [hnode ctx rfl]
  · rw [hnode ctx rfl]
  · rw [hnode ctx rfl]
  · rw [show (6 : Nat) = 5 + 1 from rfl, runM_succ, hstep]
    exact (ehLoopLemma env
      ({ ctx with lastNode := some "extractInfoNode",
                  error := some "Step limit exceeded. Possible infinite loop.",
                  nextNode := some "errorHandlingNode" } : Ctx) hd).1
  · rw [show (6 : Nat) = 5 + 1 from rfl, runM_succ, hstep]
    exact (ehLoopLemma env
      ({ ctx with lastNode := some "extractInfoNode",
                  error := some "Step limit exceeded. Possible infinite loop.",
                  nextNode := some "errorHandlingNode" } : Ctx) hd).2.1
  · rw [show (6 : Nat) = 5 + 1 from rfl,
      execTrace_cons env 5 _ "extractInfoNode" hd rfl rfl, hstep, List.count_cons]
    have h0 := (ehLoopLemma env
      ({ ctx with lastNode := some "extractInfoNode",
                  error := some "Step limit exceeded. Possible infinite loop.",
                  nextNode := some "errorHandlingNode" } : Ctx) hd).2.2.1
    simp [h0]

/-- C1 witness: a concrete context at the ceiling. -/
theorem stepLimit_fails_closed_witness :
    (extractInfoNode {} { stepCount := 20 }).calls = [] ∧
    (extractInfoNode {} { stepCount := 20 }).ctx.nextNode = some "errorHandlingNode" ∧
    (extractInfoNode {} { stepCount := 20 }).ctx.error =
      some "Step limit exceeded. Possible infinite loop." ∧
    (runM {} 6 ⟨some "extractInfoNode", { stepCount := 20 }, false⟩).ctx.done = true ∧
    (runM {} 6 ⟨some "extractInfoNode", { stepCount := 20 }, false⟩).ctx.finalResult =
      some ("Error: " ++ "Step limit exceeded. Possible infinite loop.") ∧
    (execTrace {} 6 ⟨some "extractInfoNode", { stepCount := 20 }, false⟩).count
      "extractInfoNode" = 1 :=
  stepLimit_fails_closed {} { stepCount := 20 } (by decide) rfl


/-- C2 counterexample: inside `extractInfoNode` a tool invocation succeeds
(the call is issued and the step is logged with its result), yet `retryCount`
stays at 2 instead of resetting to 0 — the claim's "resets after every
successful tool invocation in any state" fails on the code. -/
theorem retryReset_claim_counterexample :
    (extractInfoNode envB ctxB).calls =
      [.toolCall "click_element" (some (.jobj [("selector", .jstr "#btn")]))] ∧
    (extractInfoNode envB ctxB).ctx.steps =
      [{ tool := some "click_element", action := "click",
         args := some (.jobj [("selector", .jstr "#btn")]),
         result := some (.jstr "page content") }] ∧
    (extractInfoNode envB ctxB).ctx.nextNode = some "extractInfoNode" ∧
    (extractInfoNode envB ctxB).ctx.retryCount = 2 ∧
    (extractInfoNode envB ctxB).ctx.retryCount ≠ 0 :=
  ⟨rfl, rfl, rfl, rfl, by decide⟩

/-- `forcedSearchBranch` never touches `retryCount`. -/
theorem forcedSearch_retry_frame (env : Env) (ctx : Ctx) (a b : Option JVal) :
    (forcedSearchBranch env ctx a b).ctx.retryCount = ctx.retryCount := by
  unfold forcedSearchBranch
  repeat'
    first
      | rfl
      | intro _
      | split
      | simp only [errTo, apply_ite (fun o : NodeOut => o.ctx.retryCount), ite_self]

/-- `forcedParseBranch` never touches `retryCount`. -/
theorem forcedParse_retry_frame (env : Env) (ctx : Ctx) :
    (forcedParseBranch env ctx).ctx.retryCount = ctx.retryCount := rfl

/-- The try body of `extractInfoNode` never touches `retryCount`. -/
theorem extractInfoTryBody_retry_frame (env : Env) (ctx : Ctx) (action : String)
    (args0 : Option JVal) (a b : Option JVal) :
    (extractInfoTryBody env ctx action args0 a b).ctx.retryCount = ctx.retryCount := by
  unfold extractInfoTryBody
  repeat'
    first
      | rfl
      | exact forcedSearch_retry_frame env ctx _ _
      | exact forcedParse_retry_frame env ctx
      | intro _
      | split
      | simp only [errTo, apply_ite (fun o : NodeOut => o.ctx.retryCount), ite_self]

/-- `extractInfoNode` never touches `retryCount` (successful tool invocations
included). -/
theorem extractInfo_retry_frame (env : Env) (ctx : Ctx) :
    (extractInfoNode env ctx).ctx.retryCount = ctx.retryCount := by
  unfold extractInfoNode
  repeat'
    first
      | rfl
      | exact extractInfoTryBody_retry_frame env ctx _ _ _ _
      | intro _
      | split
      | simp only [errTo, apply_ite (fun o : NodeOut => o.ctx.retryCount), ite_self]

/-- C2 (amended): `retryCount` resets to 0 after every successful action in
`takeActionNode` (every success path hands over to `extractInfoNode`), but
successful tool invocations inside `extractInfoNode` leave it unchanged; it
increases by exactly 1 per pass through `errorHandlingNode`; a pass that
reaches 3 sets `finalResult` to `'Error: '` plus the error and transitions to
`endNode`, and from `errorHandlingNode` the run reaches `endNode` within at
most three passes. -/
theorem retryPolicy_amended :
    (∀ (env : Env) (ctx : Ctx),
      (errorHandlingNode env ctx).ctx.retryCount = ctx.retryCount + 1) ∧
    (∀ (env : Env) (ctx : Ctx), ctx.retryCount + 1 < 3 →
      (errorHandlingNode env ctx).ctx.nextNode =
        some (ctx.lastNode.getD "takeActionNode")) ∧
    (∀ (env : Env) (ctx : Ctx), 3 ≤ ctx.retryCount + 1 →
      (errorHandlingNode env ctx).ctx.finalResult =
        some ("Error: " ++ jsShowOptStr ctx.error) ∧
      (errorHandlingNode env ctx).ctx.nextNode = some "endNode") ∧
    (∀ (env : Env) (ctx : Ctx),
      (takeActionNode env ctx).ctx.nextNode = some "extractInfoNode" →
      (takeActionNode env ctx).ctx.retryCount = 0) ∧
    (∀ (env : Env) (ctx : Ctx),
      (extractInfoNode env ctx).ctx.retryCount = ctx.retryCount) ∧
    (∀ (env : Env) (ctx : Ctx), ctx.done = false →
      (runM env 5 ⟨some "errorHandlingNode", ctx, false⟩).ctx.done = true ∧
      (execTrace env 5 ⟨some "errorHandlingNode", ctx, false⟩).count
        "errorHandlingNode" ≤ 3) := by
  refine ⟨?_, ?_, ?_, ?_, ?_, ?_⟩
  · intro env ctx
    simp only [errorHandlingNode]
    split <;> rfl
  · intro env ctx hlt
    simp only [errorHandlingNode]
    rw [if_pos hlt]
  · intro env ctx hge
    simp only [errorHandlingNode]
    rw [if_neg (by omega : ¬ (ctx.retryCount + 1 < 3))]
    exact ⟨rfl, rfl⟩
  · intro env ctx
    unfold takeActionNode takeActionTryBody
    repeat'
      first
        | simp_all [errTo]
        | intro _
        | split
  · intro env ctx
    exact extractInfo_retry_frame env ctx
  · intro env ctx hd
    exact ⟨(ehLoopLemma env ctx hd).1, (ehLoopLemma env ctx hd).2.2.2⟩

/-- C2 witness: the amended policy evaluated at concrete inputs. -/
theorem retryPolicy_amended_witness :
    (errorHandlingNode {} { retryCount := 1 }).ctx.retryCount = 2 ∧
    (errorHandlingNode {} { retryCount := 1, lastNode := some "errorHandlingNode" }).ctx.nextNode =
      some "errorHandlingNode" ∧
    (errorHandlingNode {} { retryCount := 2, error := some "boom" }).ctx.finalResult =
      some "Error: boom" ∧
    (extractInfoNode envB ctxB).ctx.retryCount = 2 ∧
    (runM ({} : Env) 5 ⟨some "errorHandlingNode", ({} : Ctx), false⟩).ctx.done = true := by
  refine ⟨?_, ?_, ?_, ?_, ?_⟩
  · exact retryPolicy_amended.1 {} { retryCount := 1 }
  · exact retryPolicy_amended.2.1 {} { retryCount := 1, lastNode := some "errorHandlingNode" }
      (by decide)
  · exact (retryPolicy_amended.2.2.1 {} { retryCount := 2, error := some "boom" }
      (by decide)).1
  · exact retryPolicy_amended.2.2.2.2.1 envB ctxB
  · exact (retryPolicy_amended.2.2.2.2.2 {} {} rfl).1


/-- A passing non-blank-string check pins the property to a string value. -/
theorem isNonBlank_str {v : Option JVal} (h : isNonBlankStr v = true) :
    ∃ s, v = some (.jstr s) := by
  match v with
  | some (.jstr s) => exact ⟨s, rfl⟩
  | some (.jnum _) | some (.jbool _) | some .jnull | some .jundef
  | some (.jobj _) | some (.jarr _) | none => simp [isNonBlankStr] at h

theorem validate_click (args : JVal) :
    validateActionArgs "click" (some args) =
      (args.truthy && isNonBlankStr (args.lookup "selector")) := by
  cases h1 : args.truthy <;> cases h2 : isNonBlankStr (args.lookup "selector") <;>
    simp [validateActionArgs, JVal.lookupOpt, h1, h2]

theorem validate_extract (args : JVal) :
    validateActionArgs "extract" (some args) =
      (args.truthy && isNonBlankStr (args.lookup "selector")) := by
  cases h1 : args.truthy <;> cases h2 : isNonBlankStr (args.lookup "selector") <;>
    simp [validateActionArgs, JVal.lookupOpt, h1, h2]

theorem validate_type (args : JVal) :
    validateActionArgs "type" (some args) =
      (args.truthy && isNonBlankStr (args.lookup "selector") &&
        isNonBlankStr (args.lookup "text")) := by
  cases h1 : args.truthy <;> cases h2 : isNonBlankStr (args.lookup "selector") <;>
    cases h3 : isNonBlankStr (args.lookup "text") <;>
    simp [validateActionArgs, JVal.lookupOpt, h1, h2, h3]

theorem validate_navigate (args : JVal) :
    validateActionArgs "navigate" (some args) =
      (args.truthy && isNonBlankStr (args.lookup "url")) := by
  cases h1 : args.truthy <;> cases h2 : isNonBlankStr (args.lookup "url") <;>
    simp [validateActionArgs, JVal.lookupOpt, h1, h2]

theorem list_lookup_none_iff {β : Type} (k : String) :
    ∀ (fields : List (String × β)), fields.lookup k = none ↔ ∀ p ∈ fields, p.1 ≠ k := by
  intro fields
  induction fields with
  | nil => simp
  | cons p rest ih =>
      cases p with
      | mk k1 v1 =>
          by_cases hk : k = k1
          · subst hk
            simp [List.lookup]
          · have hbe : (k == k1) = false := beq_eq_false_iff_ne.mpr hk
            simp only [List.lookup, hbe, ih]
            constructor
            · intro hall p hp
              rcases List.mem_cons.1 hp with h | h
              · subst h
                exact fun he => hk he.symm
              · exact hall p h
            · intro hall p hp
              exact hall p (List.mem_cons_of_mem _ hp)

theorem lookup_mapkeys (f : String → JVal) :
    ∀ (ks : List String) (k : String), k ∈ ks →
      List.lookup k (ks.map fun k' => (k', f k')) = some (f k) := by
  intro ks
  induction ks with
  | nil => intro k hk; simp at hk
  | cons k1 rest ih =>
      intro k hk
      by_cases he : k = k1
      · subst he
        simp [List.lookup]
      · rcases List.mem_cons.1 hk with h | h
        · exact absurd h he
        · have hbe : (k == k1) = false := beq_eq_false_iff_ne.mpr he
          simp [List.lookup, hbe, ih k h]

theorem lookup_mapkeys_none (f : String → JVal) :
    ∀ (ks : List String) (k : String), k ∉ ks →
      List.lookup k (ks.map fun k' => (k', f k')) = none := by
  intro ks
  induction ks with
  | nil => intro k _; rfl
  | cons k1 rest ih =>
      intro k hk
      have h1 : k ≠ k1 := fun he => hk (he ▸ List.mem_cons_self k1 rest)
      have h2 : k ∉ rest := fun hm => hk (List.mem_cons_of_mem _ hm)
      have hbe : (k == k1) = false := beq_eq_false_iff_ne.mpr h1
      simp [List.lookup, hbe, ih k h2]

theorem zod_accepts (fields : List (String × JVal)) (ks : List String)
    (h : ∀ k ∈ ks, ∃ s, (JVal.jobj fields).lookup k = some (JVal.jstr s)) :
    zodParseStrings ks (.jobj fields) =
      some (.jobj (ks.map fun k => (k, ((JVal.jobj fields).lookup k).getD .jundef))) := by
  unfold zodParseStrings
  rw [if_pos ?hc]
  case hc =>
    rw [List.all_eq_true]
    intro k hk
    obtain ⟨s, hs⟩ := h k hk
    simp [hs]


theorem zod_out_props (fields : List (String × JVal)) (ks : List String)
    (h : ∀ k ∈ ks, ∃ s, (JVal.jobj fields).lookup k = some (JVal.jstr s)) :
    ∃ out, zodParseStrings ks (.jobj fields) = some out ∧
      (∀ k ∈ ks, out.lookup k = (JVal.jobj fields).lookup k) ∧
      (((JVal.jobj fields).keys ⊆ ks) → objEquiv out (.jobj fields)) := by
  have hmem : ∀ k ∈ ks,
      JVal.lookup (.jobj (ks.map fun k' => (k', ((JVal.jobj fields).lookup k').getD .jundef))) k =
        (JVal.jobj fields).lookup k := by
    intro k hk
    show List.lookup k (ks.map fun k' => (k', ((JVal.jobj fields).lookup k').getD .jundef)) = _
    rw [lookup_mapkeys _ ks k hk]
    obtain ⟨s, hs⟩ := h k hk
    rw [hs]
    rfl
  refine ⟨_, zod_accepts fields ks h, hmem, ?_⟩
  intro hsub k
  by_cases hk : k ∈ ks
  · exact hmem k hk
  · have h1 : List.lookup k (ks.map fun k' => (k', ((JVal.jobj fields).lookup k').getD .jundef)) =
        none := lookup_mapkeys_none _ ks k hk
    have h2 : fields.lookup k = none := by
      rw [list_lookup_none_iff]
      intro p hp he
      exact hk (hsub (by
        show k ∈ fields.map Prod.fst
        exact List.mem_map.2 ⟨p, hp, he⟩))
    show List.lookup k (ks.map fun k' => (k', ((JVal.jobj fields).lookup k').getD .jundef)) =
      fields.lookup k
    rw [h1, h2]

/-- C6 (amended): every argument object accepted by `validateActionArgs` for
one of the four tool actions is accepted by the tool's zod schema parser; the
parsed object agrees with the original on every schema key, and equals it
(as key/value content) whenever the original carries no keys beyond the
schema — zod's strip mode drops unrecognised keys, the one modification.  The
only coercion is `analyzePageNode` rewrapping a bare-string `navigate`
argument as an url object. -/
theorem roundTrip_amended :
    (∀ (action : String) (args : JVal),
      (action = "navigate" ∨ action = "type" ∨ action = "click" ∨ action = "extract") →
      validateActionArgs action (some args) = true →
      ∃ out, zodParseStrings (schemaKeys action) args = some out ∧
        (∀ k ∈ schemaKeys action, out.lookup k = args.lookup k) ∧
        ((args.keys ⊆ schemaKeys action) → objEquiv out args)) ∧
    (∀ (env : Env) (ctx : Ctx) (s : String) (pa : PAction),
      env.parserParse (cleanLLMJsonOutput (env.llm (analyzePrompt env ctx
        (analyzeAllowedActions env ctx)))) = some pa →
      pa = ⟨"navigate", .jstr s⟩ →
      "navigate" ∈ analyzeAllowedActions env ctx →
      (analyzePageNode env ctx).ctx.nextArgs = some (.jobj [("url", .jstr s)])) := by
  constructor
  · intro action args hact hval
    rcases hact with hact | hact | hact | hact <;> subst hact
    · rw [validate_navigate] at hval
      rw [Bool.and_eq_true] at hval
      obtain ⟨s, hs⟩ := isNonBlank_str hval.2
      match args, hs with
      | .jobj fields, hs =>
          exact zod_out_props fields ["url"] (by
            intro k hk
            simp only [List.mem_singleton] at hk
            subst hk
            exact ⟨s, hs⟩)
    · rw [validate_type] at hval
      rw [Bool.and_eq_true, Bool.and_eq_true] at hval
      obtain ⟨s, hs⟩ := isNonBlank_str hval.1.2
      obtain ⟨t, ht⟩ := isNonBlank_str hval.2
      match args, hs, ht with
      | .jobj fields, hs, ht =>
          exact zod_out_props fields ["selector", "text"] (by
            intro k hk
            rcases List.mem_cons.1 hk with hk | hk
            · subst hk; exact ⟨s, hs⟩
            · simp only [List.mem_singleton] at hk
              subst hk; exact ⟨t, ht⟩)
    · rw [validate_click] at hval
      rw [Bool.and_eq_true] at hval
      obtain ⟨s, hs⟩ := isNonBlank_str hval.2
      match args, hs with
      | .jobj fields, hs =>
          exact zod_out_props fields ["selector"] (by
            intro k hk
            simp only [List.mem_singleton] at hk
            subst hk
            exact ⟨s, hs⟩)
    · rw [validate_extract] at hval
      rw [Bool.and_eq_true] at hval
      obtain ⟨s, hs⟩ := isNonBlank_str hval.2
      match args, hs with
      | .jobj fields, hs =>
          exact zod_out_props fields ["selector"] (by
            intro k hk
            simp only [List.mem_singleton] at hk
            subst hk
            exact ⟨s, hs⟩)
  · intro env ctx s pa hparse hpa hmem
    subst hpa
    unfold analyzePageNode
    simp only [hparse]
    rw [if_pos hmem]
    rfl

/-- C6 counterexample: an argument object with one extra key passes
validation but is modified by the schema parser (the extra key is stripped),
refuting "accepted without modification" as stated. -/
theorem roundTrip_claim_counterexample :
    validateActionArgs "click" (some cexArgs) = true ∧
    zodParseStrings (schemaKeys "click") cexArgs = some (.jobj [("selector", .jstr "#a")]) ∧
    (∀ out, zodParseStrings (schemaKeys "click") cexArgs = some out →
      ¬ objEquiv out cexArgs) := by
  refine ⟨by decide, rfl, ?_⟩
  intro out h he
  have h' : some (JVal.jobj [("selector", .jstr "#a")]) = some out := h
  cases h'
  have hx := he "extra"
  simp [JVal.lookup, cexArgs, List.lookup] at hx

/-- C6 witness: a well-shaped click argument round-trips. -/
theorem roundTrip_amended_witness :
    ∃ out, zodParseStrings (schemaKeys "click") (.jobj [("selector", .jstr "#go")]) = some out ∧
      (∀ k ∈ schemaKeys "click",
        out.lookup k = (JVal.jobj [("selector", .jstr "#go")]).lookup k) ∧
      (((JVal.jobj [("selector", .jstr "#go")]).keys ⊆ schemaKeys "click") →
        objEquiv out (.jobj [("selector", .jstr "#go")])) :=
  roundTrip_amended.1 "click" (.jobj [("selector", .jstr "#go")])
    (Or.inr (Or.inr (Or.inl rfl))) (by decide)


/-- A found index is within the list (needed to relate last-index arithmetic
on the reversed text). -/
theorem findIdx?_lt {p : Char → Bool} :
    ∀ {l : List Char} {i : Nat}, l.findIdx? p = some i → i < l.length := by
  intro l
  induction l with
  | nil => intro i h; simp at h
  | cons c rest ih =>
      intro i h
      rw [List.findIdx?_cons] at h
      by_cases hp : p c
      · rw [if_pos hp] at h
        cases h
        simp
      · rw [if_neg hp, List.findIdx?_succ, Option.map_eq_some'] at h
        obtain ⟨j, hj, hji⟩ := h
        have := ih hj
        simp only [List.length_cons]
        omega

theorem optMin_indexOf (a b : Char) (cs : List Char) :
    optMin (jsIndexOfChar cs a) (jsIndexOfChar cs b) =
      cs.findIdx? (fun c => c == a || c == b) := by
  induction cs with
  | nil => rfl
  | cons c rest ih =>
      unfold jsIndexOfChar at ih ⊢
      rw [List.findIdx?_cons, List.findIdx?_cons, List.findIdx?_cons,
        List.findIdx?_succ, List.findIdx?_succ, List.findIdx?_succ]
      cases ha : c == a with
      | true =>
          cases hb : c == b with
          | true => simp [optMin]
          | false =>
              simp only [Bool.true_or, if_true]
              cases List.findIdx? (fun x => x == b) rest <;> simp [optMin]
      | false =>
          cases hb : c == b with
          | true =>
              simp only [Bool.false_or, if_true]
              simp only [show (false = true) = False by simp, if_false]
              cases List.findIdx? (fun x => x == a) rest <;> simp [optMin]
          | false =>
              simp only [Bool.false_or]
              simp only [show (false = true) = False by simp, if_false]
              rw [← ih]
              cases h1 : List.findIdx? (fun x => x == a) rest <;>
                cases h2 : List.findIdx? (fun x => x == b) rest <;>
                  simp [optMin] <;> omega


theorem firstBracePos_eq (cs : List Char) : firstBracePos cs = firstOpenIdx cs :=
  optMin_indexOf '{' '[' cs

theorem lastBracePos_eq (cs : List Char) : lastBracePos cs = lastCloseIdx cs := by
  unfold lastBracePos lastCloseIdx jsLastIndexOfChar
  rw [← optMin_indexOf]
  cases h1 : jsIndexOfChar cs.reverse '}' with
  | none =>
      cases h2 : jsIndexOfChar cs.reverse ']' with
      | none => rfl
      | some j => rfl
  | some i =>
      cases h2 : jsIndexOfChar cs.reverse ']' with
      | none => rfl
      | some j =>
          have b1 : i < cs.length := by
            have := findIdx?_lt (p := (· == '}')) (l := cs.reverse) (i := i)
            simpa using this h1
          have b2 : j < cs.length := by
            have := findIdx?_lt (p := (· == ']')) (l := cs.reverse) (i := j)
            simpa using this h2
          show optMax (some (cs.length - 1 - i)) (some (cs.length - 1 - j)) =
            some (cs.length - 1 - min i j)
          simp only [optMax, Option.some.injEq]
          omega

/-- C9: `cleanLLMJsonOutput` is total (a Lean function never throws), strips
leading code-fence markup, and returns exactly the substring of the
fence-stripped trimmed text from the first opening brace/bracket through the
last closing brace/bracket whenever the latter occurs strictly later;
otherwise the fence-stripped trimmed text is returned unchanged. -/
theorem cleanLLM_characterization (s : String) :
    cleanLLMJsonOutput s =
      (match firstOpenIdx (fenceStripped s).toList, lastCloseIdx (fenceStripped s).toList with
       | some i, some j =>
           if i < j then
             String.mk (((fenceStripped s).toList.drop i).take (j + 1 - i))
           else fenceStripped s
       | _, _ => fenceStripped s) := by
  unfold cleanLLMJsonOutput
  simp only [firstBracePos_eq, lastBracePos_eq]



theorem scanCands_counter (env : Env) :
    ∀ (l : List Cand) (i j : Nat) (st : ScanState),
      scanCandsImpl env l i none st = scanCandsImpl env l j none st := by
  intro l
  induction l with
  | nil => intro i j st; rfl
  | cons c rest ih =>
      intro i j st
      unfold scanCandsImpl
      rw [if_neg (by simp : ¬ (none : Option Nat) = some i),
        if_neg (by simp : ¬ (none : Option Nat) = some j)]
      by_cases ht : candKey c ∈ st.tried
      · rw [if_pos ht, if_pos ht]
        exact ih (i + 1) (j + 1) st
      · rw [if_neg ht, if_neg ht]
        cases h : tryAttempt env c.selector c.index 2000 with
        | error e => exact ih (i + 1) (j + 1) _
        | ok o =>
            cases o with
            | some t => rfl
            | none => exact ih (i + 1) (j + 1) _


theorem scanCands_skip_past (env : Env) :
    ∀ (l : List Cand) (i p : Nat) (st : ScanState), p < i →
      scanCandsImpl env l i (some p) st = scanCandsImpl env l i none st := by
  intro l
  induction l with
  | nil => intro i p st _; rfl
  | cons c rest ih =>
      intro i p st hp
      unfold scanCandsImpl
      rw [if_neg (show ¬ (some p : Option Nat) = some i from by
          simp only [Option.some.injEq]
          omega),
        if_neg (by simp : ¬ (none : Option Nat) = some i)]
      by_cases ht : candKey c ∈ st.tried
      · rw [if_pos ht, if_pos ht]
        rw [ih (i + 1) p st (by omega)]
      · rw [if_neg ht, if_neg ht]
        cases h : tryAttempt env c.selector c.index 2000 with
        | error e => exact ih (i + 1) p _ (by omega)
        | ok o =>
            cases o with
            | some t => rfl
            | none => exact ih (i + 1) p _ (by omega)


theorem scanCands_erase (env : Env) :
    ∀ (l : List Cand) (k i : Nat) (st : ScanState),
      scanCandsImpl env l i (some (i + k)) st =
        scanCandsImpl env (l.eraseIdx k) i none st := by
  intro l
  induction l with
  | nil => intro k i st; cases k <;> rfl
  | cons c rest ih =>
      intro k i st
      cases k with
      | zero =>
          show scanCandsImpl env (c :: rest) i (some (i + 0)) st =
            scanCandsImpl env rest i none st
          conv_lhs => unfold scanCandsImpl
          rw [if_pos (by simp)]
          rw [scanCands_skip_past env rest (i + 1) (i + 0) st (by omega)]
          exact scanCands_counter env rest (i + 1) i st
      | succ k' =>
          show scanCandsImpl env (c :: rest) i (some (i + (k' + 1))) st =
            scanCandsImpl env (c :: rest.eraseIdx k') i none st
          unfold scanCandsImpl
          rw [if_neg (show ¬ (some (i + (k' + 1)) : Option Nat) = some i from by
              simp only [Option.some.injEq]
              omega),
            if_neg (by simp : ¬ (none : Option Nat) = some i)]
          by_cases ht : candKey c ∈ st.tried
          · rw [if_pos ht, if_pos ht]
            have h1 := ih k' (i + 1) st
            rw [show i + 1 + k' = i + (k' + 1) from by omega] at h1
            rw [h1]
          · rw [if_neg ht, if_neg ht]
            cases h : tryAttempt env c.selector c.index 2000 with
            | error e =>
                have h1 := ih k' (i + 1)
                  ({ tried := st.tried ++ [candKey c], lastError := some e,
                     attempts := st.attempts ++ [⟨c.selector, c.index, 2000⟩] } : ScanState)
                rw [show i + 1 + k' = i + (k' + 1) from by omega] at h1
                exact h1
            | ok o =>
                cases o with
                | some t => rfl
                | none =>
                    have h1 := ih k' (i + 1)
                      ({ tried := st.tried ++ [candKey c], lastError := st.lastError,
                         attempts := st.attempts ++ [⟨c.selector, c.index, 2000⟩] } : ScanState)
                    rw [show i + 1 + k' = i + (k' + 1) from by omega] at h1
                    exact h1


theorem scanCands_spec (env : Env) :
    ∀ (l : List Cand) (st : ScanState),
      specScanCands env l st.tried st.lastError st.attempts =
        ⟨(scanCandsImpl env l 0 none st).1.attempts,
         (scanCandsImpl env l 0 none st).2,
         (scanCandsImpl env l 0 none st).1.lastError⟩ := by
  intro l
  induction l with
  | nil => intro st; rfl
  | cons c rest ih =>
      intro st
      conv_lhs => unfold specScanCands
      conv_rhs => unfold scanCandsImpl
      rw [if_neg (by simp : ¬ (none : Option Nat) = some 0)]
      by_cases ht : candKey c ∈ st.tried
      · rw [if_pos ht, if_pos ht]
        rw [scanCands_counter env rest 1 0 st]
        exact ih st
      · rw [if_neg ht, if_neg ht]
        cases h : tryAttempt env c.selector c.index 2000 with
        | error e =>
            dsimp only
            rw [scanCands_counter env rest 1 0
              ({ tried := st.tried ++ [candKey c], lastError := some e,
                 attempts := st.attempts ++ [⟨c.selector, c.index, 2000⟩] } : ScanState)]
            exact ih ⟨st.tried ++ [candKey c], some e, st.attempts ++ [⟨c.selector, c.index, 2000⟩]⟩
        | ok o =>
            cases o with
            | some t => rfl
            | none =>
                dsimp only
                rw [scanCands_counter env rest 1 0
                  ({ tried := st.tried ++ [candKey c], lastError := st.lastError,
                     attempts := st.attempts ++ [⟨c.selector, c.index, 2000⟩] } : ScanState)]
                exact ih ⟨st.tried ++ [candKey c], st.lastError, st.attempts ++ [⟨c.selector, c.index, 2000⟩]⟩


theorem specScanCands_eq (env : Env) (l : List Cand) (tr : List String)
    (le : Option String) (acc : List SelAttempt) :
    specScanCands env l tr le acc =
      ⟨(scanCandsImpl env l 0 none ⟨tr, le, acc⟩).1.attempts,
       (scanCandsImpl env l 0 none ⟨tr, le, acc⟩).2,
       (scanCandsImpl env l 0 none ⟨tr, le, acc⟩).1.lastError⟩ :=
  scanCands_spec env l ⟨tr, le, acc⟩

theorem scanCands_eraseIdx (env : Env) (l : List Cand) (k : Nat) (st : ScanState) :
    scanCandsImpl env l 0 (some k) st =
      scanCandsImpl env (l.eraseIdx k) 0 none st := by
  have h := scanCands_erase env l k 0 st
  rw [Nat.zero_add] at h
  exact h

theorem specScanCands_cons_new (env : Env) (c : Cand) (rest : List Cand)
    (seen : List String) (le : Option String) (acc : List SelAttempt)
    (h : candKey c ∉ seen) :
    specScanCands env (c :: rest) seen le acc =
      match tryAttempt env c.selector c.index 2000 with
      | .ok (some t) => ⟨acc ++ [⟨c.selector, c.index, 2000⟩], some t, le⟩
      | .ok none => specScanCands env rest (seen ++ [candKey c]) le
          (acc ++ [⟨c.selector, c.index, 2000⟩])
      | .error e => specScanCands env rest (seen ++ [candKey c]) (some e)
          (acc ++ [⟨c.selector, c.index, 2000⟩]) := by
  conv_lhs => unfold specScanCands
  rw [if_neg h]

/-- C3: selector resolution follows the specified priority order with
de-duplication and short-circuiting: the node always hands off to endNode,
its attempt log equals the spec's (primary 4s attempt, then the candidate at
the extraction index, then remaining candidates in order, duplicates
skipped), and its finalResult is the first non-empty text or the synthetic
failure message built from the last error. -/
theorem selectorResolution_refines (env : Env) (ctx : Ctx) :
    (extractWithSelectorNode env ctx).ctx.nextNode = some "endNode" ∧
    (extractWithSelectorNode env ctx).attempts =
      (specResolution env ctx.extractionSelector ctx.extractionIndex
        ctx.candidateSelectors).attempts ∧
    (extractWithSelectorNode env ctx).ctx.finalResult =
      some (specFinalResult (specResolution env ctx.extractionSelector
        ctx.extractionIndex ctx.candidateSelectors)) := by
  unfold extractWithSelectorNode specResolution
  dsimp only
  cases h0 : tryAttempt env ctx.extractionSelector ctx.extractionIndex 4000 with
  | ok o0 =>
    cases o0 with
    | some t => exact ⟨rfl, rfl, rfl⟩
    | none =>
      dsimp only
      cases hc : ctx.candidateSelectors.get? ctx.extractionIndex with
      | none =>
          dsimp only
          rw [specScanCands_eq]
          cases h2 : scanCandsImpl env ctx.candidateSelectors 0 none
              ⟨[], none, [⟨ctx.extractionSelector, ctx.extractionIndex, 4000⟩]⟩ with
          | mk st2 o2 =>
              cases o2 with
              | some t => exact ⟨rfl, rfl, rfl⟩
              | none => exact ⟨rfl, rfl, rfl⟩
      | some c =>
          dsimp only
          rw [specScanCands_cons_new env c _ [] none _ (List.not_mem_nil _)]
          cases h1 : tryAttempt env c.selector c.index 2000 with
          | ok o1 =>
            cases o1 with
            | some t => exact ⟨rfl, rfl, rfl⟩
            | none =>
                dsimp only
                rw [scanCands_eraseIdx, specScanCands_eq]
                simp only [List.nil_append]
                cases h2 : scanCandsImpl env
                    (ctx.candidateSelectors.eraseIdx ctx.extractionIndex) 0 none
                    ⟨[candKey c], none,
                     [⟨ctx.extractionSelector, ctx.extractionIndex, 4000⟩] ++
                      [⟨c.selector, c.index, 2000⟩]⟩ with
                | mk st2 o2 =>
                    cases o2 with
                    | some t => exact ⟨rfl, rfl, rfl⟩
                    | none => exact ⟨rfl, rfl, rfl⟩
          | error e =>
                dsimp only
                rw [scanCands_eraseIdx, specScanCands_eq]
                simp only [List.nil_append]
                cases h2 : scanCandsImpl env
                    (ctx.candidateSelectors.eraseIdx ctx.extractionIndex) 0 none
                    ⟨[candKey c], some e,
                     [⟨ctx.extractionSelector, ctx.extractionIndex, 4000⟩] ++
                      [⟨c.selector, c.index, 2000⟩]⟩ with
                | mk st2 o2 =>
                    cases o2 with
                    | some t => exact ⟨rfl, rfl, rfl⟩
                    | none => exact ⟨rfl, rfl, rfl⟩
  | error e0 =>
      dsimp only
      cases hc : ctx.candidateSelectors.get? ctx.extractionIndex with
      | none =>
          dsimp only
          rw [specScanCands_eq]
          cases h2 : scanCandsImpl env ctx.candidateSelectors 0 none
              ⟨[], some e0, [⟨ctx.extractionSelector, ctx.extractionIndex, 4000⟩]⟩ with
          | mk st2 o2 =>
              cases o2 with
              | some t => exact ⟨rfl, rfl, rfl⟩
              | none => exact ⟨rfl, rfl, rfl⟩
      | some c =>
          dsimp only
          rw [specScanCands_cons_new env c _ [] (some e0) _ (List.not_mem_nil _)]
          cases h1 : tryAttempt env c.selector c.index 2000 with
          | ok o1 =>
            cases o1 with
            | some t => exact ⟨rfl, rfl, rfl⟩
            | none =>
                dsimp only
                rw [scanCands_eraseIdx, specScanCands_eq]
                simp only [List.nil_append]
                cases h2 : scanCandsImpl env
                    (ctx.candidateSelectors.eraseIdx ctx.extractionIndex) 0 none
                    ⟨[candKey c], some e0,
                     [⟨ctx.extractionSelector, ctx.extractionIndex, 4000⟩] ++
                      [⟨c.selector, c.index, 2000⟩]⟩ with
                | mk st2 o2 =>
                    cases o2 with
                    | some t => exact ⟨rfl, rfl, rfl⟩
                    | none => exact ⟨rfl, rfl, rfl⟩
          | error e =>
                dsimp only
                rw [scanCands_eraseIdx, specScanCands_eq]
                simp only [List.nil_append]
                cases h2 : scanCandsImpl env
                    (ctx.candidateSelectors.eraseIdx ctx.extractionIndex) 0 none
                    ⟨[candKey c], some e,
                     [⟨ctx.extractionSelector, ctx.extractionIndex, 4000⟩] ++
                      [⟨c.selector, c.index, 2000⟩]⟩ with
                | mk st2 o2 =>
                    cases o2 with
                    | some t => exact ⟨rfl, rfl, rfl⟩
                    | none => exact ⟨rfl, rfl, rfl⟩


theorem ciStartsWith_self : ∀ (pat rest : List Char),
    ciStartsWith (pat ++ rest) pat = true := by
  intro pat
  induction pat with
  | nil => intro rest; cases rest <;> rfl
  | cons p ps ih =>
      intro rest
      show (ciEq p p && ciStartsWith (ps ++ rest) ps) = true
      rw [ih rest]
      simp [ciEq]

theorem quotedMatchHere_not_start (cs : List Char)
    (h : ciStartsWith cs searchForPat = false) : quotedMatchHere cs = none := by
  simp [quotedMatchHere, h]

theorem unquotedMatchHere_not_start (cs : List Char)
    (h : ciStartsWith cs searchForPat = false) : unquotedMatchHere cs = none := by
  simp [unquotedMatchHere, h]

theorem regexScan_skip (attempt : List Char → Option String) :
    ∀ (pre rest : List Char),
      (∀ i, i < pre.length → attempt ((pre ++ rest).drop i) = none) →
      regexScan attempt (pre ++ rest) = regexScan attempt rest := by
  intro pre
  induction pre with
  | nil => intro rest _; rfl
  | cons p ps ih =>
      intro rest h
      show (match attempt (p :: (ps ++ rest)) with
            | some r => some r
            | none => regexScan attempt (ps ++ rest)) = regexScan attempt rest
      rw [show attempt (p :: (ps ++ rest)) = none from h 0 (by simp)]
      exact ih rest (fun i hi =>
        h (i + 1) (by simp only [List.length_cons]; omega))

theorem regexScan_hit (attempt : List Char → Option String) (cs : List Char)
    (r : String) (h : attempt cs = some r) : regexScan attempt cs = some r := by
  cases cs with
  | nil => simpa [regexScan] using h
  | cons c rest =>
      show (match attempt (c :: rest) with
            | some r => some r
            | none => regexScan attempt rest) = some r
      rw [h]

theorem regexScan_no_pat (attempt : List Char → Option String)
    (hatt : ∀ cs, ciStartsWith cs searchForPat = false → attempt cs = none) :
    ∀ cs, hasSearchFor cs = false → regexScan attempt cs = none := by
  intro cs
  induction cs with
  | nil =>
      intro _
      show attempt [] = none
      exact hatt [] rfl
  | cons c rest ih =>
      intro h
      rw [hasSearchFor, Bool.or_eq_false_iff] at h
      show (match attempt (c :: rest) with
            | some r => some r
            | none => regexScan attempt rest) = none
      rw [hatt _ h.1]
      exact ih h.2

theorem quotedMatchHere_noquote (cs : List Char)
    (h : ∀ c ∈ cs, isQuoteChar c = false) : quotedMatchHere cs = none := by
  unfold quotedMatchHere
  cases hd : cs.drop searchForPat.length with
  | nil => simp [hd]
  | cons q tl =>
      have hmem : q ∈ cs.drop searchForPat.length := by
        rw [hd]; exact List.mem_cons_self q tl
      have hq : isQuoteChar q = false := h q (List.mem_of_mem_drop hmem)
      cases tl with
      | nil => simp [hd]
      | cons b0 btail => simp [hd, hq]

theorem regexScan_quoted_noquote :
    ∀ cs : List Char, (∀ c ∈ cs, isQuoteChar c = false) →
      regexScan quotedMatchHere cs = none := by
  intro cs
  induction cs with
  | nil => intro h; exact quotedMatchHere_noquote [] h
  | cons c rest ih =>
      intro h
      show (match quotedMatchHere (c :: rest) with
            | some r => some r
            | none => regexScan quotedMatchHere rest) = none
      rw [quotedMatchHere_noquote (c :: rest) h]
      exact ih (fun x hx => h x (List.mem_cons_of_mem c hx))

theorem findIdx_quote_append :
    ∀ (l : List Char) (c : Char) (post : List Char),
      (∀ x ∈ l, isQuoteChar x = false) → isQuoteChar c = true →
      (l ++ c :: post).findIdx? isQuoteChar = some l.length := by
  intro l
  induction l with
  | nil =>
      intro c post _ hc
      simp [List.findIdx?_cons, hc]
  | cons x xs ih =>
      intro c post hl hc
      have hx : isQuoteChar x = false := hl x (List.mem_cons_self x xs)
      rw [List.cons_append, List.findIdx?_cons, if_neg (by simp [hx]),
        List.findIdx?_succ,
        ih c post (fun y hy => hl y (List.mem_cons_of_mem x hy)) hc]
      rfl

theorem quotedMatchHere_hit (q1 q2 g0 : Char) (gs post : List Char)
    (hq1 : isQuoteChar q1 = true) (hq2 : isQuoteChar q2 = true)
    (hdot : ∀ c ∈ g0 :: gs, dotChar c = true)
    (hnq : ∀ c ∈ gs, isQuoteChar c = false) :
    quotedMatchHere (searchForPat ++ q1 :: g0 :: (gs ++ q2 :: post)) =
      some (String.mk (g0 :: gs)) := by
  unfold quotedMatchHere
  rw [if_pos (ciStartsWith_self searchForPat _), List.drop_left]
  dsimp only
  rw [if_pos hq1, findIdx_quote_append gs q2 post hnq hq2]
  dsimp only
  rw [List.take_left]
  rw [if_pos (List.all_eq_true.mpr hdot)]

theorem unquotedMatchHere_hit (r0 : Char) (rtail : List Char) (hr0 : r0 ≠ ',') :
    unquotedMatchHere (searchForPat ++ r0 :: rtail) =
      some (String.mk ((r0 :: rtail).takeWhile (fun c => c ≠ ','))) := by
  unfold unquotedMatchHere
  rw [List.drop_left, if_pos (ciStartsWith_self searchForPat _)]
  dsimp only
  rw [if_pos hr0]

/-- C10: characterization of `extractQueryFromTask`.  (a) A task with no
case-insensitive occurrence of the search-for pattern yields the hard-coded
fallback query.  (b) A task whose first pattern occurrence is followed by a
quoted run of dot-matchable characters yields exactly the quoted text.
(c) A quote-free task whose first pattern occurrence is followed by a
non-comma character yields the following text up to the first comma. -/
theorem extractQuery_characterization :
    (∀ task : String, hasSearchFor task.toList = false →
        extractQueryFromTask task = "AI agents") ∧
    (∀ (task : String) (pre : List Char) (q1 g0 q2 : Char) (gs post : List Char),
        task.toList = pre ++ (searchForPat ++ q1 :: g0 :: (gs ++ q2 :: post)) →
        isQuoteChar q1 = true → isQuoteChar q2 = true →
        (∀ c ∈ g0 :: gs, dotChar c = true) →
        (∀ c ∈ gs, isQuoteChar c = false) →
        (∀ i, i < pre.length →
          ciStartsWith (task.toList.drop i) searchForPat = false) →
        extractQueryFromTask task = String.mk (g0 :: gs)) ∧
    (∀ (task : String) (pre : List Char) (r0 : Char) (rtail : List Char),
        task.toList = pre ++ (searchForPat ++ r0 :: rtail) →
        (∀ c ∈ task.toList, isQuoteChar c = false) →
        (∀ i, i < pre.length →
          ciStartsWith (task.toList.drop i) searchForPat = false) →
        r0 ≠ ',' →
        extractQueryFromTask task =
          String.mk ((r0 :: rtail).takeWhile (fun c => c ≠ ','))) := by
  refine ⟨?_, ?_, ?_⟩
  · intro task h
    unfold extractQueryFromTask
    rw [regexScan_no_pat quotedMatchHere quotedMatchHere_not_start task.toList h,
      regexScan_no_pat unquotedMatchHere unquotedMatchHere_not_start task.toList h]
  · intro task pre q1 g0 q2 gs post htask hq1 hq2 hdot hnq hpre
    unfold extractQueryFromTask
    have hscan : regexScan quotedMatchHere task.toList =
        some (String.mk (g0 :: gs)) := by
      rw [htask]
      rw [regexScan_skip quotedMatchHere pre _
        (fun i hi => quotedMatchHere_not_start _ (htask ▸ hpre i hi))]
      exact regexScan_hit quotedMatchHere _ _
        (quotedMatchHere_hit q1 q2 g0 gs post hq1 hq2 hdot hnq)
    rw [hscan]
  · intro task pre r0 rtail htask hnoq hpre hr0
    unfold extractQueryFromTask
    rw [regexScan_quoted_noquote task.toList hnoq]
    have hscan : regexScan unquotedMatchHere task.toList =
        some (String.mk ((r0 :: rtail).takeWhile (fun c => c ≠ ','))) := by
      rw [htask]
      rw [regexScan_skip unquotedMatchHere pre _
        (fun i hi => unquotedMatchHere_not_start _ (htask ▸ hpre i hi))]
      exact regexScan_hit unquotedMatchHere _ _ (unquotedMatchHere_hit r0 rtail hr0)
    rw [hscan]

/-- Concrete instances of all three branches of the C10 characterization. -/
theorem extractQuery_characterization_witness :
    extractQueryFromTask "hello world" = "AI agents" ∧
    extractQueryFromTask "search for 'cats' now" = "cats" ∧
    extractQueryFromTask "please search for dogs, fast" = "dogs" := by
  refine ⟨?_, ?_, ?_⟩
  · exact extractQuery_characterization.1 "hello world" (by decide)
  · exact (extractQuery_characterization.2.1 "search for 'cats' now" []
      '\'' 'c' '\'' "ats".toList " now".toList (by decide) (by decide)
      (by decide) (by decide) (by decide)
      (fun i hi => by simp at hi)).trans (by decide)
  · exact (extractQuery_characterization.2.2 "please search for dogs, fast"
      "please ".toList 'd' "ogs, fast".toList (by decide) (by decide)
      (by decide) (by decide)).trans (by decide)

end AgentSurfer
